import Mathlib

/-!
Shallow embedding of `src/yt_dlp/extractor/xml2ass.py` (class `XML2ASSConverter`),
a danmaku-comment to ASS-subtitle converter, together with theorems settling the
frozen claims about it.

Modelling conventions:
* Python floats are modelled as exact rationals (`ℚ`); where a claim depends on
  IEEE double behaviour this is noted at the claim.
* Python `round` (banker's rounding, half to even) is `pyRound`;
  `int(...)` truncation toward zero is `ratTrunc`.
* Python exceptions are modelled with `Except PyErr`.
* The trigonometric projection `convert_flash_rotation` is modelled over `ℝ`.
-/

set_option allowUnsafeReducibility true
set_option linter.unusedVariables false
set_option maxRecDepth 40000

attribute [local semireducible] Rat.mul Rat.add Rat.sub Rat.div Rat.neg Rat.inv Rat.blt

namespace Xml2Ass

/-- Python `math.floor` on an exact rational, as the computable `Rat.floor`. -/
def ratFloor (q : ℚ) : ℤ := Rat.floor q

/-- Python `math.ceil` on an exact rational. -/
def ratCeil (q : ℚ) : ℤ := -ratFloor (-q)

/-- Python `round` on an exact rational value: round half to even. -/
def pyRound (q : ℚ) : ℤ :=
  let f : ℤ := ratFloor q
  let frac : ℚ := q - f
  if frac < 1/2 then f
  else if 1/2 < frac then f + 1
  else if f % 2 = 0 then f else f + 1

/-- Python `int(...)` applied to a float value: truncation toward zero. -/
def ratTrunc (q : ℚ) : ℤ :=
  if 0 ≤ q then ratFloor q else -ratFloor (-q)

/-- Python `f-string` formatting `{n:02}`: zero-pad a (nonnegative) integer to
two digits. -/
def padTwo (n : ℤ) : String :=
  if 0 ≤ n then (if n < 10 then "0" ++ toString n else toString n) else toString n

/-- Python `f-string` formatting `{x:.0f}` on a float value: round half to even
to an integer and print it (callers in this file only reach it with values that
do not produce the `-0` corner case of CPython). -/
def fmtF0 (q : ℚ) : String := toString (pyRound q)

/-- Uppercase hexadecimal digits of a natural number. -/
def hexUpper (n : ℕ) : String := String.mk ((Nat.toDigits 16 n).map Char.toUpper)

/-- Python `f-string` formatting `{n:02X}` for a nonnegative integer. -/
def fmt02X (n : ℤ) : String :=
  let s := hexUpper n.toNat
  if s.length < 2 then "0" ++ s else s

/-- Model of `XML2ASSConverter.convert_timestamp` (source lines 45-50):
`timestamp = round(seconds * 100.0)` followed by `divmod` decomposition and
`f'{hour}:{minute:02}:{second:02}.{centsecond:02}'`.  Python `divmod` on
integers is floor division, `Int.ediv`/`Int.emod` here. -/
def convert_timestamp (seconds : ℚ) : String :=
  let timestamp := pyRound (seconds * 100)
  let hour := Int.ediv timestamp 360000
  let minute := Int.emod timestamp 360000
  let minute2 := Int.ediv minute 6000
  let second := Int.emod minute 6000
  let second2 := Int.ediv second 100
  let centsecond := Int.emod second 100
  toString hour ++ ":" ++ padTwo minute2 ++ ":" ++ padTwo second2 ++ "." ++ padTwo centsecond

/-! ## Text escaping (`ass_escape`, source lines 31-43) -/

/-- Unicode figure space U+2007, used by `ass_escape` in place of leading and
trailing spaces. -/
def figureSpace : Char := Char.ofNat 0x2007

/-- Left brace character (written by code point to keep it out of string
literals). -/
def braceL : Char := Char.ofNat 123

/-- Right brace character. -/
def braceR : Char := Char.ofNat 125

/-- Character-level effect of the three sequential replaces on source line 41:
`.replace(backslash, double backslash)`, then `.replace(left brace,
escaped left brace)`, then `.replace(right brace, escaped right brace)`.
The three replacement passes touch disjoint characters and insert only
backslashes (never braces), so their composition acts independently on each
character of the original string. -/
def escapeChar (c : Char) : List Char :=
  if c = '\\' then ['\\', '\\']
  else if c = braceL then ['\\', braceL]
  else if c = braceR then ['\\', braceR]
  else [c]

/-- Python `str.split` on a newline character: keeps empty parts, always
returns at least one part. -/
def splitLines (l : List Char) : List (List Char) :=
  l.foldr (fun c acc => if c = '\n' then [] :: acc else (c :: acc.headD []) :: acc.tail) [[]]

/-- Python `t.lstrip(single space)` on a character list. -/
def lstripSp (l : List Char) : List Char := l.dropWhile (fun c => c = ' ')

/-- Python `t.rstrip(single space)` on a character list. -/
def rstripSp (l : List Char) : List Char := (l.reverse.dropWhile (fun c => c = ' ')).reverse

/-- Python `t.strip(single space)` on a character list. -/
def stripSp (l : List Char) : List Char := rstripSp (lstripSp l)

/-- Model of the inner helper `replace_leading_space` (source lines 32-38). -/
def replaceLeadingSpace (t : List Char) : List Char :=
  let stripped := stripSp t
  if t.length = stripped.length then t
  else
    List.replicate (t.length - (lstripSp t).length) figureSpace ++ stripped ++
      List.replicate (t.length - (rstripSp t).length) figureSpace

/-- One split part as emitted by `ass_escape`: `replace_leading_space(part) or
single space` (source line 40); an empty string is falsy in Python, so an empty
processed part becomes a single ordinary space. -/
def processLine (t : List Char) : List Char :=
  let r := replaceLeadingSpace t
  if r = [] then [' '] else r

/-- Model of `XML2ASSConverter.ass_escape` (source lines 31-43) on character
lists. -/
def assEscapeList (l : List Char) : List Char :=
  List.intercalate ['\\', 'N'] ((splitLines (l.flatMap escapeChar)).map processLine)

/-- Model of `XML2ASSConverter.ass_escape` (source lines 31-43). -/
def ass_escape (s : String) : String := String.mk (assEscapeList s.data)

/-! ## Color codec (`convert_color`, source lines 52-65) -/

/-- Model of the local `ClipByte` lambda (source line 62): clamp to `[0, 255]`,
rounding with Python `round`. -/
def ClipByte (x : ℚ) : ℤ := if 255 < x then 255 else if x < 0 then 0 else pyRound x

/-- Model of `XML2ASSConverter.convert_color` (source lines 52-65).  Python's
`>> k` on arbitrary-precision ints is floor division by `2 ^ k` and `& 0xff` is
`mod 256`; the BT.601-style matrix coefficients are taken as their literal
decimal values (the claims never reach the matrix branch at inputs where IEEE
rounding of the coefficients could change the clamped byte). -/
def convert_color (width height : ℤ) (rgb : ℤ) : String :=
  if rgb = 0x000000 then "000000"
  else if rgb = 0xffffff then "FFFFFF"
  else
    let r : ℤ := Int.emod (Int.ediv rgb 65536) 256
    let g : ℤ := Int.emod (Int.ediv rgb 256) 256
    let b : ℤ := Int.emod rgb 256
    if width < 1280 ∧ height < 576 then
      fmt02X b ++ fmt02X g ++ fmt02X r
    else
      fmt02X (ClipByte ((r : ℚ) * (956384088080656/100000000000000000) +
          (g : ℚ) * (3217254540203729/100000000000000000) +
          (b : ℚ) * (95826361371715607/100000000000000000))) ++
      fmt02X (ClipByte ((r : ℚ) * (-10493933142075390/100000000000000000) +
          (g : ℚ) * (117231478191855154/100000000000000000) +
          (b : ℚ) * (-6737545049779757/100000000000000000))) ++
      fmt02X (ClipByte ((r : ℚ) * (91348912373987645/100000000000000000) +
          (g : ℚ) * (7858536372532510/100000000000000000) +
          (b : ℚ) * (792551253479842/100000000000000000)))

/-- Model of `XML2ASSConverter.calculate_length` (source lines 67-68):
`max(len(line) for line in s.split(newline))`. -/
def calculate_length (s : String) : ℕ :=
  ((splitLines s.data).map List.length).foldl max 0

/-! ## Python value and exception model -/

/-- Exception classes raised by the modelled code paths. -/
inductive PyErr
  | typeError
  | valueError
  | indexError
  | attributeError
deriving DecidableEq

/-- Scalar Python values flowing through `get_position` and the positioned
descriptor (ints, floats, strings and `None` — the JSON scalars; floats are
exact rationals). -/
inductive PyVal
  | int (n : ℤ)
  | float (q : ℚ)
  | str (s : String)
  | none
deriving DecidableEq

instance {ε α : Type} [DecidableEq ε] [DecidableEq α] : DecidableEq (Except ε α) := fun x y =>
  match x, y with
  | .ok a, .ok b => if h : a = b then .isTrue (by rw [h]) else .isFalse (by simp [h])
  | .error a, .error b => if h : a = b then .isTrue (by rw [h]) else .isFalse (by simp [h])
  | .ok _, .error _ => .isFalse (by simp)
  | .error _, .ok _ => .isFalse (by simp)

/-- Python `str.split` on an arbitrary separator character, keeping empty
parts. -/
def splitOnChar (sep : Char) (l : List Char) : List (List Char) :=
  l.foldr (fun c acc => if c = sep then [] :: acc else (c :: acc.headD []) :: acc.tail) [[]]

/-- Python `.replace(slash n, newline)` as used for comment text: scan left to
right replacing each non-overlapping occurrence of the two-character sequence
`/n` by a newline. -/
def replaceSlashN : List Char → List Char
  | [] => []
  | '/' :: 'n' :: rest => '\n' :: replaceSlashN rest
  | c :: rest => c :: replaceSlashN rest

/-- Parse an unsigned run of decimal digits. -/
def digitsVal : List Char → Option ℕ
  | [] => Option.none
  | l => l.foldl (fun acc c =>
      acc.bind fun n => if c.isDigit then some (10 * n + (c.toNat - 48)) else Option.none)
      (some 0)

/-- Python `float(string)` on the literal forms produced by the inputs modelled
here: optional sign, then digits with an optional decimal point (at least one
digit overall; `1.`, `.5` are accepted as in CPython).  Exponent forms,
`inf`/`nan` and surrounding whitespace are outside the model; they never arise
from the concrete inputs used in the theorems below. -/
def parseDecimal (l : List Char) : Option ℚ :=
  let (sign, body) : ℚ × List Char :=
    match l with
    | '-' :: rest => (-1, rest)
    | '+' :: rest => (1, rest)
    | rest => (1, rest)
  match splitOnChar '.' body with
  | [ip] => (digitsVal ip).map fun n => sign * n
  | [[], []] => Option.none
  | [ip, fp] =>
    let ipv : Option ℕ := if ip = [] then some 0 else digitsVal ip
    let fpv : Option ℕ := if fp = [] then some 0 else digitsVal fp
    ipv.bind fun i => fpv.map fun f => sign * (i + (f : ℚ) / 10 ^ fp.length)
  | _ => Option.none

/-- Python `int(string)`: optional sign then digits only (no decimal point). -/
def parseIntLit (l : List Char) : Option ℤ :=
  match l with
  | '-' :: rest => (digitsVal rest).map fun n => -(n : ℤ)
  | '+' :: rest => (digitsVal rest).map fun n => (n : ℤ)
  | rest => (digitsVal rest).map fun n => (n : ℤ)

/-- Decimal rendering of a rational with terminating decimal expansion (the
only case arising from JSON float literals), mirroring CPython `str` of a
float: integral values print a trailing `.0`, fractional values print the
minimal-length expansion.  Rationals without a terminating expansion never
arise from the JSON-scalar inputs the theorems use; they print in a fallback
`num/den` form. -/
def decimalRepr (q : ℚ) : String :=
  let sign := if q.num < 0 then "-" else ""
  let a := q.num.natAbs
  let d := q.den
  match (List.range 40).find? (fun k => d ∣ 10 ^ k) with
  | some 0 => sign ++ toString a ++ ".0"
  | some k =>
    let m := a * 10 ^ k / d
    let ip := m / 10 ^ k
    let fp := m % 10 ^ k
    let fpDigits := toString fp
    sign ++ toString ip ++ "." ++
      String.mk (List.replicate (k - fpDigits.length) '0') ++ fpDigits
  | Option.none => sign ++ toString a ++ "/" ++ toString d

/-- Python `str()` on the modelled scalar values. -/
def pyStr : PyVal → String
  | .int n => toString n
  | .float q => decimalRepr q
  | .str s => s
  | .none => "None"

/-- Python `float(x)` on a modelled value: `float(None)` raises `TypeError`
(not `ValueError`); an unparsable string raises `ValueError`. -/
def pyFloat : PyVal → Except PyErr ℚ
  | .int n => .ok (n : ℚ)
  | .float q => .ok q
  | .str s => match parseDecimal s.data with
    | some q => .ok q
    | Option.none => .error .valueError
  | .none => .error .typeError

/-- Python `int(x)` on a modelled value: truncation toward zero for floats;
`int(None)` raises `TypeError`; a non-integer-literal string raises
`ValueError`. -/
def pyInt : PyVal → Except PyErr ℤ
  | .int n => .ok n
  | .float q => .ok (ratTrunc q)
  | .str s => match parseIntLit s.data with
    | some n => .ok n
    | Option.none => .error .valueError
  | .none => .error .typeError

/-! ## Geometry: zoom factor and position resolution -/

/-- Value that lines 77-87 of `get_zoom_factor` set out to compute: the
contain-fit scale factor and letterbox/pillarbox offsets for placing a
`source_size` canvas inside the converter's `width x height` canvas. -/
def zoom_factor_value (width height : ℤ) (source_size : ℤ × ℤ) : ℚ × ℚ × ℚ :=
  let source_aspect : ℚ := (source_size.1 : ℚ) / (source_size.2 : ℚ)
  let target_aspect : ℚ := (width : ℚ) / (height : ℚ)
  if target_aspect < source_aspect then
    let scale_factor := (width : ℚ) / (source_size.1 : ℚ)
    (scale_factor, 0, ((height : ℚ) - (width : ℚ) / source_aspect) / 2)
  else if source_aspect < target_aspect then
    let scale_factor := (height : ℚ) / (source_size.2 : ℚ)
    (scale_factor, ((width : ℚ) - (height : ℚ) * source_aspect) / 2, 0)
  else
    ((width : ℚ) / (source_size.1 : ℚ), 0, 0)

/-- Model of `XML2ASSConverter.get_zoom_factor` (source lines 70-87).  The
cache read on lines 71-75 is guarded by `try ... except AttributeError` and
`getattr(..., default None)`, so it falls through on a fresh instance; but line
76 then executes `self.get_zoom_factor.Cached_Size = ...`, an attribute
assignment on a *bound method* object, which CPython rejects with
`AttributeError` (method objects accept no attribute assignment).  No handler
around line 76 exists, so every call raises `AttributeError` before reaching
the computation of lines 77-87 (`zoom_factor_value`). -/
def get_zoom_factor (width height : ℤ) (source_size : ℤ × ℤ) :
    Except PyErr (ℚ × ℚ × ℚ) :=
  Except.error PyErr.attributeError

/-- Model of `XML2ASSConverter.get_position` (source lines 89-99).  A value of
float type that is `≤ 1` (any such value, not only those in `(0, 1]`) is
resolved as a fraction of the legacy 672x438 canvas; ints and floats `> 1` are
absolute pixel values; strings are re-parsed with `float(...)` and recursed
(so a parsed string takes the float branches), with a parse failure caught as
`ValueError` and resolved to 0; `float(None)` raises `TypeError`, which line
98's `except ValueError` does not catch. -/
def get_position (input_pos : PyVal) (is_height : Bool) (zf : ℚ × ℚ × ℚ) :
    Except PyErr ℚ :=
  let offset := if is_height then zf.2.2 else zf.2.1
  match input_pos with
  | .int n => .ok (zf.1 * (n : ℚ) + offset)
  | .float q =>
    if q ≤ 1 then .ok ((if is_height then (438 : ℚ) else 672) * zf.1 * q + offset)
    else .ok (zf.1 * q + offset)
  | .str s =>
    match parseDecimal s.data with
    | some q =>
      if q ≤ 1 then .ok ((if is_height then (438 : ℚ) else 672) * zf.1 * q + offset)
      else .ok (zf.1 * q + offset)
    | Option.none => .ok 0
  | .none => .error .typeError

/-! ## Positioned (mode 7) records: `write_bilibili_positioned` -/

/-- Python `safe_list.get(index, default)` (source lines 8-13). -/
def safeGet (l : List PyVal) (i : ℕ) (d : PyVal) : PyVal := l.getD i d

/-- Arguments extracted from a positioned-comment descriptor by source lines
182-197. -/
structure PosArgs where
  text : String
  from_x : ℚ
  from_y : ℚ
  to_x : ℚ
  to_y : ℚ
  from_alpha : ℤ
  to_alpha : ℤ
  rotate_z : ℤ
  rotate_y : ℤ
  lifetime : ℚ
  duration : ℤ
  delay : ℤ
  fontface : PyVal
  isborder : PyVal
deriving DecidableEq

/-- Model of the argument extraction in `write_bilibili_positioned` (source
lines 182-197), evaluated in source order so that the first raising step
determines the exception.  `comment_args` is the already-decoded JSON array
(`json.loads` itself is external; a decode failure is represented by passing
`Option.none` to `bilibiliPositionedBody` below). -/
def parsePositionedArgs (zf : ℚ × ℚ × ℚ) (args : List PyVal) :
    Except PyErr PosArgs := do
  let t4 ← match args.get? 4 with
    | some v => Except.ok v
    | Option.none => Except.error PyErr.indexError
  let text := ass_escape (String.mk (replaceSlashN (pyStr t4).data))
  let from_x ← get_position (safeGet args 0 (.int 0)) false zf
  let from_y ← get_position (safeGet args 1 (.int 0)) true zf
  let to_x ← get_position (safeGet args 7 (.float from_x)) false zf
  let to_y ← get_position (safeGet args 8 (.float from_y)) true zf
  let alpha := splitOnChar '-' (pyStr (safeGet args 2 (.str "1"))).data
  let a0 ← pyFloat (match alpha.get? 0 with
    | some s => .str (String.mk s)
    | Option.none => .int 1)
  let from_alpha := 255 - pyRound (a0 * 255)
  let a1 ← pyFloat (match alpha.get? 1 with
    | some s => .str (String.mk s)
    | Option.none => .int from_alpha)
  let to_alpha := 255 - pyRound (a1 * 255)
  let rotate_z ← pyInt (safeGet args 5 (.int 0))
  let rotate_y ← pyInt (safeGet args 6 (.int 0))
  let lifetime ← pyFloat (safeGet args 3 (.int 4500))
  let duration ← pyInt (safeGet args 9 (.float (lifetime * 1000)))
  let delay ← pyInt (safeGet args 10 (.int 0))
  let fontface := safeGet args 12 .none
  let isborder := safeGet args 11 (.str "true")
  Except.ok ⟨text, from_x, from_y, to_x, to_y, from_alpha, to_alpha,
    rotate_z, rotate_y, lifetime, duration, delay, fontface, isborder⟩

/-- Outcome classification of one positioned record: an ASS event line is
emitted, the record is silently dropped, or an uncaught exception propagates
out of `convert` and aborts the whole run. -/
inductive PosOutcome
  | emitted
  | dropped
  | raised (e : PyErr)
deriving DecidableEq

/-- Outcome of the `try`-guarded body of `write_bilibili_positioned` (source
lines 181-229) given a zoom factor: `json.loads` failure (decoded argument
`Option.none`) raises `ValueError`, caught by line 228 → dropped; an
`IndexError`/`ValueError` from argument extraction is likewise caught →
dropped; any other exception (in particular `TypeError` from `float(None)` /
`int(None)`) propagates.  Lines 198-227 (rotation formatting) raise nothing,
so successful extraction always emits exactly one event line. -/
def bilibiliPositionedBody (zf : ℚ × ℚ × ℚ) (jsonArgs : Option (List PyVal)) :
    PosOutcome :=
  match jsonArgs with
  | Option.none => .dropped
  | some args =>
    match parsePositionedArgs zf args with
    | .ok _ => .emitted
    | .error .indexError => .dropped
    | .error .valueError => .dropped
    | .error e => .raised e

/-- Outcome of `write_bilibili_positioned` (source lines 178-229): line 180
calls `get_zoom_factor` *outside* the `try` block of line 181, so the
`AttributeError` it raises (see `get_zoom_factor`) propagates for every
positioned record, reachable before any of the descriptor handling. -/
def write_bilibili_positioned_outcome (width height : ℤ)
    (jsonArgs : Option (List PyVal)) : PosOutcome :=
  match get_zoom_factor width height (672, 438) with
  | .error e => .raised e
  | .ok zf => bilibiliPositionedBody zf jsonArgs

/-! ## Geometry: the flash rotation projection (`convert_flash_rotation`,
source lines 101-128), modelled over the reals -/

noncomputable section

/-- Python float modulo `a % b` for the positive modulus used here:
`a - b * floor(a / b)`. -/
def pymodR (a b : ℝ) : ℝ := a - b * (⌊a / b⌋ : ℤ)

/-- Model of the inner helper `WrapAngle` (source lines 102-103): wrap a degree
angle into `(-180, 180]`. -/
def WrapAngle (deg : ℝ) : ℝ := 180 - pymodR (180 - deg) 360

/-- Python `math.radians`. -/
def radiansR (deg : ℝ) : ℝ := deg * Real.pi / 180

/-- Python `math.degrees`. -/
def degreesR (rad : ℝ) : ℝ := rad * 180 / Real.pi

/-- Python `math.atan2 y x`. -/
def pyAtan2 (y x : ℝ) : ℝ :=
  if 0 < x then Real.arctan (y / x)
  else if x < 0 ∧ 0 ≤ y then Real.arctan (y / x) + Real.pi
  else if x < 0 ∧ y < 0 then Real.arctan (y / x) - Real.pi
  else if x = 0 ∧ 0 < y then Real.pi / 2
  else if x = 0 ∧ y < 0 then -(Real.pi / 2)
  else 0

/-- Result tuple of `convert_flash_rotation`:
`(tr_x, tr_y, out_x, out_y, out_z, scale_x, scale_y)`. -/
structure FlashResult where
  x : ℝ
  y : ℝ
  frx : ℝ
  fry : ℝ
  frz : ℝ
  scaleX : ℝ
  scaleY : ℝ

/-- Model of `XML2ASSConverter.convert_flash_rotation` (source lines 101-128).
Angles are wrapped into `(-180, 180]`; a wrapped `rot_y` of exactly `±90` is
nudged by one degree; the Python `try/except ZeroDivisionError` around the
perspective divide becomes an explicit test of the denominator; a negative
perspective scale is mirrored (scale negated, both orientation angles rotated
by 180 degrees). -/
def convert_flash_rotation (width height : ℝ) (rot_y_deg rot_z_deg x y : ℝ) :
    FlashResult :=
  let ry0 := WrapAngle rot_y_deg
  let rz0 := WrapAngle rot_z_deg
  let ry1 := if ry0 = 90 ∨ ry0 = -90 then ry0 - 1 else ry0
  let ry := radiansR ry1
  let rz := radiansR rz0
  let outs : ℝ × ℝ × ℝ :=
    if ry = 0 ∨ rz = 0 then (0, -degreesR ry, -degreesR rz)
    else
      (degreesR (Real.arcsin (Real.sin ry * Real.sin rz)),
       degreesR (pyAtan2 (-(Real.sin ry) * Real.cos rz) (Real.cos ry)),
       degreesR (pyAtan2 (-(Real.cos ry) * Real.sin rz) (Real.cos rz)))
  let tr_x1 := (x * Real.cos rz + y * Real.sin rz) / Real.cos ry +
    (1 - Real.cos rz / Real.cos ry) * width / 2 -
    Real.sin rz / Real.cos ry * height / 2
  let tr_y1 := y * Real.cos rz - x * Real.sin rz +
    Real.sin rz * width / 2 + (1 - Real.cos rz) * height / 2
  let tr_z := (tr_x1 - width / 2) * Real.sin ry
  let fov := width * Real.tan (2 * Real.pi / 9) / 2
  let scale_xy := if fov + tr_z = 0 then 1 else fov / (fov + tr_z)
  let tr_x := (tr_x1 - width / 2) * scale_xy + width / 2
  let tr_y := (tr_y1 - height / 2) * scale_xy + height / 2
  let mirrored : ℝ × ℝ × ℝ :=
    if scale_xy < 0 then (-scale_xy, outs.1 + 180, outs.2.1 + 180)
    else (scale_xy, outs.1, outs.2.1)
  ⟨tr_x, tr_y, WrapAngle mirrored.2.1, WrapAngle mirrored.2.2,
    WrapAngle outs.2.2, mirrored.1 * 100, mirrored.1 * 100⟩

end

/-! ## Engine state, parsed comments and the lane grid -/

/-- Display-mode slot of a parsed comment tuple: the integer lane-track index
(0 scroll, 2 bottom, 1 top, 3 reverse scroll, from the map on source line 297)
or the string marker `bilipos` for positioned comments. -/
inductive CMode
  | int (n : ℕ)
  | bilipos
deriving DecidableEq

/-- Parsed comment 9-tuple (source lines 292-314): `c0` timestamp, `c1` pool
id `int(p[4])`, `c2` input order index, `c3` text, `c4` mode, `c5` color
`int(p[3])`, `c6` font size, `c7` height, `c8` width. -/
structure Comment where
  c0 : ℚ
  c1 : ℤ
  c2 : ℕ
  c3 : String
  c4 : CMode
  c5 : ℤ
  c6 : ℚ
  c7 : ℚ
  c8 : ℚ
deriving DecidableEq

/-- Lane track index consulted in `self.rows[c[4]]`; only reached for integer
modes (positioned comments never touch the grid). -/
def laneIndex : CMode → ℕ
  | .int n => n
  | .bilipos => 0

/-- The lane grid `self.rows`: four tracks, each one slot per lane. -/
abbrev Grid := List (List (Option Comment))

/-- Lane lookup `self.rows[m][r]` (both indices always in range when reached
from the loops modelled here; out of range reads default to empty). -/
def gridGet (g : Grid) (m r : ℕ) : Option Comment := (g.getD m []).getD r Option.none

/-- Lane write `self.rows[m][r] = c`; `List.set` ignores an out-of-range
index, matching the `contextlib.suppress(IndexError)` on source line 271. -/
def gridSet (g : Grid) (m r : ℕ) (c : Comment) : Grid :=
  g.set m ((g.getD m []).set r (some c))

/-- Mutable converter state (`self` of `XML2ASSConverter`): the constructor
configuration (source lines 17-28), the random style identifier, and the
mutable `font_size`, `alpha` and `rows` fields that `convert` writes. -/
structure EngineState where
  width : ℤ
  height : ℤ
  bottom_reserved : ℤ
  font_name : String
  font_size : ℚ
  alpha : ℚ
  duration_marquee : ℚ
  duration_still : ℚ
  styleid : String
  rows : Grid
deriving DecidableEq

/-- Fresh lane grid `[[None] * (height - bottom_reserved + 1) for _ in
range(4)]` (source lines 29 and 326); a negative slot count yields empty
tracks exactly as Python list multiplication does. -/
def freshGrid (height bottom_reserved : ℤ) : Grid :=
  List.replicate 4 (List.replicate (height - bottom_reserved + 1).toNat Option.none)

/-- Scan bound `rowmax = self.height - self.bottom_reserved` of
`test_free_rows` (source line 233). -/
def rowmaxNat (st : EngineState) : ℕ := (st.height - st.bottom_reserved).toNat

/-! ## Lane allocator (`test_free_rows`, `find_alternative_row`,
`mark_comment_row`, source lines 231-272) -/

/-- Blocking test for vertical (top/bottom) occupants, source line 239:
`target_row[0] + self.duration_still > c[0]`. -/
def vertBlocks (st : EngineState) (c occ : Comment) : Bool :=
  decide (c.c0 < occ.c0 + st.duration_still)

/-- Threshold time of the scrolling branch (source lines 244-247), with the
`ZeroDivisionError` fallback when `c[8] + width = 0`. -/
def scrollThreshold (st : EngineState) (c : Comment) : ℚ :=
  if c.c8 + (st.width : ℚ) = 0 then c.c0 - st.duration_marquee
  else c.c0 - st.duration_marquee * (1 - (st.width : ℚ) / (c.c8 + (st.width : ℚ)))

/-- Blocking test for scrolling occupants (source lines 251-255): the
disjunction is evaluated left to right, and a `ZeroDivisionError` in the
second disjunct (occupant width plus canvas width zero) is swallowed by the
`except: pass`, leaving the lane unblocked. -/
def scrollBlocks (st : EngineState) (c occ : Comment) : Bool :=
  if scrollThreshold st c < occ.c0 then true
  else if occ.c8 + (st.width : ℚ) = 0 then false
  else decide (c.c0 < occ.c0 + occ.c8 * st.duration_marquee / (occ.c8 + (st.width : ℚ)))

/-- Scan loop of `test_free_rows` (source lines 236-257): starting at `row`
with `res` free lanes counted and `target_row` the last lane content compared,
count consecutive non-blocking lanes, stopping at `rowmax`, at `res ≥ c[7]`,
or at a blocking occupant (the comparison against `target_row` skips the
re-check when consecutive lanes hold the same occupant).  The `fuel` argument
is the exact remaining iteration budget `rowmax − row` of the Python `while`
loop, supplied by `test_free_rows`; the recursion consumes one unit per
iteration, so the loop and its model run the same iterations. -/
def tfrAux (st : EngineState) (c : Comment) (blocks : Comment → Bool) :
    ℕ → ℕ → ℕ → Option Comment → ℕ
  | 0, _, res, _ => res
  | fuel + 1, row, res, target =>
    if row < rowmaxNat st ∧ (res : ℚ) < c.c7 then
      let cur := gridGet st.rows (laneIndex c.c4) row
      if cur ≠ target then
        match cur with
        | some occ =>
          if blocks occ then res else tfrAux st c blocks fuel (row + 1) (res + 1) cur
        | Option.none => tfrAux st c blocks fuel (row + 1) (res + 1) cur
      else tfrAux st c blocks fuel (row + 1) (res + 1) target
    else res

/-- Model of `XML2ASSConverter.test_free_rows` (source lines 231-258). -/
def test_free_rows (st : EngineState) (c : Comment) (row : ℕ) : ℕ :=
  if c.c4 = CMode.int 1 ∨ c.c4 = CMode.int 2 then
    tfrAux st c (vertBlocks st c) (rowmaxNat st - row) row 0 Option.none
  else
    tfrAux st c (scrollBlocks st c) (rowmaxNat st - row) row 0 Option.none

/-- Loop of `find_alternative_row` (source lines 260-267): return the first
empty row; otherwise keep the earliest row holding the smallest occupant start
time (`res` only moves on a strictly smaller start time).  The occupant of
`res` is always present when compared (an empty `res` row would have returned
already); the `getD 0` default is never read. -/
def farAux (st : EngineState) (c : Comment) (bound : ℕ) : ℕ → ℕ → ℕ → ℕ
  | 0, _, res => res
  | fuel + 1, row, res =>
    if row < bound then
      match gridGet st.rows (laneIndex c.c4) row with
      | Option.none => row
      | some occ =>
        if occ.c0 < ((gridGet st.rows (laneIndex c.c4) res).map Comment.c0).getD 0 then
          farAux st c bound fuel (row + 1) row
        else farAux st c bound fuel (row + 1) res
    else res

/-- Model of `XML2ASSConverter.find_alternative_row` (source lines 260-267);
the scanned range is `range(self.height - self.bottom_reserved -
math.ceil(c[7]))`, and the fuel is its exact length. -/
def find_alternative_row (st : EngineState) (c : Comment) : ℕ :=
  farAux st c (st.height - st.bottom_reserved - ratCeil c.c7).toNat
    (st.height - st.bottom_reserved - ratCeil c.c7).toNat 0 0

/-- Model of `XML2ASSConverter.mark_comment_row` (source lines 269-272): stamp
`c` into lanes `row .. row + ceil(c[7]) - 1` of its track, ignoring
out-of-range lanes. -/
def mark_comment_row (st : EngineState) (c : Comment) (row : ℕ) : Grid :=
  (List.range' row (ratCeil c.c7).toNat).foldl
    (fun g i => gridSet g (laneIndex c.c4) i c) st.rows

/-- Row search of the `convert` loop (source lines 344-349): the first row in
`range(int(rowmax))` whose free-lane count reaches `c[7]`; the fuel is the
exact length of the range. -/
def ffrAux (st : EngineState) (c : Comment) (bound : ℕ) : ℕ → ℕ → Option ℕ
  | 0, _ => Option.none
  | fuel + 1, row =>
    if row < bound then
      if c.c7 ≤ (test_free_rows st c row : ℚ) then some row
      else ffrAux st c bound fuel (row + 1)
    else Option.none

/-- First free row for `c`, with the loop bound `int(rowmax)` where
`rowmax = self.height - self.bottom_reserved - c[7]` (source line 343). -/
def findFreeRow (st : EngineState) (c : Comment) : Option ℕ :=
  ffrAux st c (ratTrunc ((st.height : ℚ) - (st.bottom_reserved : ℚ) - c.c7)).toNat
    (ratTrunc ((st.height : ℚ) - (st.bottom_reserved : ℚ) - c.c7)).toNat 0

/-- Placement of one non-positioned comment by the `convert` loop (source
lines 343-353): the first fully free row if one exists, else
`find_alternative_row`; the chosen row is stamped either way.  Returns the
chosen row and the updated grid. -/
def allocate (st : EngineState) (c : Comment) : ℕ × Grid :=
  match findFreeRow st c with
  | some row => (row, mark_comment_row st c row)
  | Option.none => (find_alternative_row st c, mark_comment_row st c (find_alternative_row st c))

/-! ## Event rendering (`write_ass_head`, `write_comment`, source lines
130-176) -/

/-- Model of `XML2ASSConverter.convert_type2` (source lines 274-275). -/
def convert_type2 (st : EngineState) (row : ℕ) : ℤ :=
  st.height - st.bottom_reserved - (row : ℤ)

/-- Model of `XML2ASSConverter.write_ass_head` (source lines 130-152). -/
def write_ass_head (st : EngineState) : String :=
  let aByte := fmt02X (255 - pyRound (st.alpha * 255))
  "[Script Info]\n" ++
  "Script Updated By: Danmaku2ASS (https://github.com/m13253/danmaku2ass)\n" ++
  "ScriptType: v4.00+\n" ++
  "PlayResX: " ++ toString st.width ++ "\n" ++
  "PlayResY: " ++ toString st.height ++ "\n" ++
  "Aspect Ratio: " ++ toString st.width ++ ":" ++ toString st.height ++ "\n" ++
  "Collisions: Normal\n" ++
  "WrapStyle: 2\n" ++
  "ScaledBorderAndShadow: yes\n" ++
  "YCbCr Matrix: TV.601\n" ++
  "[V4+ Styles]\n" ++
  "Format: Name, Fontname, Fontsize, PrimaryColour, SecondaryColour, " ++
  "OutlineColour, BackColour, Bold, Italic, Underline, StrikeOut, ScaleX, " ++
  "ScaleY, Spacing, Angle, BorderStyle, Outline, Shadow, Alignment, MarginL, " ++
  "MarginR, MarginV, Encoding\n" ++
  "Style: " ++ st.styleid ++ "," ++ st.font_name ++ "," ++ fmtF0 st.font_size ++
  ",&H" ++ aByte ++ "FFFFFF,&H" ++ aByte ++ "FFFFFF,&H" ++ aByte ++ "000000,&H" ++
  aByte ++ "000000,1,0,0,0,100,100,0.00,0.00,1," ++
  fmtF0 (max (st.font_size / 25) 1) ++ ",0,7,0,0,0,0\n" ++
  "[Events]\n" ++
  "Format: Layer, Start, End, Style, Name, MarginL, MarginR, MarginV, Effect, Text\n"

/-- Model of `XML2ASSConverter.write_comment` (source lines 154-176); the
literal braces around the style block are written `\x7b`/`\x7d`. -/
def write_comment (st : EngineState) (c : Comment) (row : ℕ) : String :=
  let text := ass_escape c.c3
  let posAndDuration : String × ℚ :=
    if c.c4 = CMode.int 1 then
      ("\\an8\\pos(" ++ fmtF0 ((st.width : ℚ) / 2) ++ ", " ++ fmtF0 (row : ℚ) ++ ")",
        st.duration_still)
    else if c.c4 = CMode.int 2 then
      ("\\an2\\pos(" ++ fmtF0 ((st.width : ℚ) / 2) ++ ", " ++
        fmtF0 ((convert_type2 st row : ℚ)) ++ ")", st.duration_still)
    else if c.c4 = CMode.int 3 then
      ("\\move(" ++ fmtF0 ((-(ratCeil c.c8) : ℚ)) ++ ", " ++ fmtF0 (row : ℚ) ++ ", " ++
        fmtF0 ((st.width : ℚ)) ++ ", " ++ fmtF0 (row : ℚ) ++ ")", st.duration_marquee)
    else
      ("\\move(" ++ fmtF0 ((st.width : ℚ)) ++ ", " ++ fmtF0 (row : ℚ) ++ ", " ++
        fmtF0 ((-(ratCeil c.c8) : ℚ)) ++ ", " ++ fmtF0 (row : ℚ) ++ ")",
        st.duration_marquee)
  let fsStyle :=
    if (-1 : ℚ) < c.c6 - st.font_size ∧ c.c6 - st.font_size < 1 then ""
    else "\\fs" ++ fmtF0 c.c6
  let colorStyle :=
    if c.c5 = 0xffffff then ""
    else "\\c&H" ++ convert_color st.width st.height c.c5 ++ "&" ++
      (if c.c5 = 0 then "\\3c&HFFFFFF&" else "")
  "Dialogue: 2," ++ convert_timestamp c.c0 ++ "," ++
    convert_timestamp (c.c0 + posAndDuration.2) ++ "," ++ st.styleid ++
    ",,0000,0000,0000,,\x7b" ++ posAndDuration.1 ++ fsStyle ++ colorStyle ++
    "\x7d" ++ text ++ "\n"

/-! ## Record parsing (`read_comments`, source lines 277-318) -/

/-- One `<d>` element of the input container as the external XML library
delivers it: the `p` attribute (`Option.none` models a missing attribute,
whose `KeyError` is caught) and the element text (`Option.none` models an
empty element, falsy like the empty string). -/
structure DElem where
  p : Option String
  text : Option String
deriving DecidableEq

/-- The input container as seen through `xml.etree.ElementTree`: either a
container that fails to parse (`ET.ParseError`) or a well-formed document
carrying its list of `<d>` elements. -/
inductive XmlInput
  | malformed
  | doc (items : List DElem)
deriving DecidableEq

/-- Parse of one raw record (the loop body, source lines 285-315): any
`KeyError`/`ValueError`/`IndexError`, a short field list, an unknown mode
code, or empty text drops the record.  Mode code 8 passes the whitelist but
matches neither branch, appending nothing. -/
def parseRecord (font_size : ℚ) (i : ℕ) (d : DElem) : Option Comment := do
  let pstr ← d.p
  let p := splitOnChar ',' pstr.data
  if p.length < 5 then Option.none else
  let p1 := p.getD 1 []
  if ¬(p1 = ['1'] ∨ p1 = ['4'] ∨ p1 = ['5'] ∨ p1 = ['6'] ∨ p1 = ['7'] ∨ p1 = ['8'])
    then Option.none else
  let t ← d.text
  if t = "" then Option.none else
  let t0 ← parseDecimal (p.getD 0 [])
  let p4 ← parseIntLit (p.getD 4 [])
  let p3 ← parseIntLit (p.getD 3 [])
  if p1 = ['1'] ∨ p1 = ['4'] ∨ p1 = ['5'] ∨ p1 = ['6'] then
    let p2 ← parseDecimal (p.getD 2 [])
    let c := String.mk (replaceSlashN t.data)
    let size := p2 * font_size / 25
    let mode : ℕ := if p1 = ['1'] then 0 else if p1 = ['4'] then 2
      else if p1 = ['5'] then 1 else 3
    some ⟨t0, p4, i, c, .int mode, p3, size,
      ((c.data.count '\n' : ℚ) + 1) * size, (calculate_length c : ℚ) * size⟩
  else if p1 = ['7'] then
    let p2i ← parseIntLit (p.getD 2 [])
    some ⟨t0, p4, i, t, .bilipos, p3, (p2i : ℚ), 0, 0⟩
  else Option.none

/-- Stable insertion into a list sorted ascending by timestamp: a new element
goes after every element with a less-or-equal key. -/
def insertByTime (c : Comment) : List Comment → List Comment
  | [] => [c]
  | d :: rest => if d.c0 ≤ c.c0 then d :: insertByTime c rest else c :: d :: rest

/-- Stable ascending sort by timestamp, modelling `comments.sort(key=lambda
ele: ele[0])` (source line 317): Python's sort is stable, and inserting each
element in input order after all elements with smaller-or-equal key
reproduces exactly the stable order. -/
def sortByTime (l : List Comment) : List Comment :=
  l.foldl (fun acc c => insertByTime c acc) []

/-- Model of `XML2ASSConverter.read_comments` (source lines 277-318). -/
def read_comments (font_size : ℚ) (xml : XmlInput) : List Comment :=
  match xml with
  | .malformed => []
  | .doc items => sortByTime (items.enum.filterMap fun ic => parseRecord font_size ic.1 ic.2)

/-! ## The pipeline (`convert`, source lines 320-361) -/

/-- Python `user_value or self.field` (source lines 322-323): `None` and `0`
are falsy, so a zero override also falls back to the stored field. -/
def pyOr (user : Option ℚ) (dflt : ℚ) : ℚ :=
  match user with
  | some v => if v = 0 then dflt else v
  | Option.none => dflt

/-- Body of the `convert` loop for one comment (source lines 333-359).  The
positioned branch delegates the event text to `renderPositioned`, standing
for `write_bilibili_positioned` (lines 178-229): that function formats IEEE
trigonometry and, as settled separately, in fact raises `AttributeError` on
every call; the abstraction is sound for inputs without positioned records,
the only ones evaluated through this model.  An empty returned string is not
appended (line 357-359). -/
def dispatchComment (renderPositioned : EngineState → Comment → String)
    (user_position : Option String) (user_color : Option ℤ)
    (acc : EngineState × String) (c : Comment) : EngineState × String :=
  let st := acc.1
  match c.c4 with
  | .int _ =>
    let c1 :=
      match user_position with
      | some s =>
        if s = "top" then { c with c4 := .int 1 }
        else if s = "bottom" then { c with c4 := .int 2 }
        else if s = "scroll" then { c with c4 := .int 0 }
        else c
      | Option.none => c
    let c2 :=
      match user_color with
      | some col => { c1 with c5 := col }
      | Option.none => c1
    let placed := allocate st c2
    ({ st with rows := placed.2 }, acc.2 ++ write_comment st c2 placed.1)
  | .bilipos =>
    let c2 :=
      match user_color with
      | some col => { c with c5 := col }
      | Option.none => c
    let line := renderPositioned st c2
    (st, if line = "" then acc.2 else acc.2 ++ line)

/-- Model of `XML2ASSConverter.convert` (source lines 320-361): store the
(`or`-combined) font size and alpha into the instance, reset the lane grid,
parse and sort the records, and either return `None` for an empty record list
or fold the renderer over the records.  Returns the produced output
(`Option.none` models Python's `None`) together with the instance state as
left behind by the call. -/
def convert (renderPositioned : EngineState → Comment → String)
    (st : EngineState) (xml : XmlInput)
    (user_font_size user_alpha : Option ℚ)
    (user_position : Option String) (user_color : Option ℤ) :
    Option String × EngineState :=
  let st1 := { st with
    font_size := pyOr user_font_size st.font_size,
    alpha := pyOr user_alpha st.alpha,
    rows := freshGrid st.height st.bottom_reserved }
  let comments := read_comments st1.font_size xml
  if comments = [] then (Option.none, st1)
  else
    let fin := comments.foldl (dispatchComment renderPositioned user_position user_color)
      (st1, write_ass_head st1)
    (some fin.2, fin.1)

/-- Fresh engine instance as built by `__init__` (source lines 17-29) with an
arbitrary style identifier standing for the `random.randint` draw on line
28. -/
def mkEngine (width height bottom_reserved : ℤ) (font_name : String)
    (font_size alpha duration_marquee duration_still : ℚ)
    (styleid : String) : EngineState :=
  ⟨width, height, bottom_reserved, font_name, font_size, alpha,
    duration_marquee, duration_still, styleid, freshGrid height bottom_reserved⟩

/-- Stub positioned renderer used to instantiate `convert` at inputs that
contain no positioned records (where `renderPositioned` is never consulted). -/
def renderPosStub : EngineState → Comment → String := fun _ _ => ""

/-! ## Concrete instances shared by several evaluations -/

/-- Tiny test configuration: 10x5 canvas, no reserved margin, font size 1,
opaque, marquee 15s, still 5s, one fixed style identifier. -/
def engA : EngineState := mkEngine 10 5 0 ("A") 1 1 15 5 ("Danmaku2ASS_0000")

/-- Same configuration as `engA` with the other style identifier a second
fresh instance would draw. -/
def engB : EngineState := mkEngine 10 5 0 ("A") 1 1 15 5 ("Danmaku2ASS_0001")

/-- One well-formed scroll comment (`mode code 1`, timestamp 0, size ratio 25,
white) with text `hi`. -/
def xmlOneScroll : XmlInput := .doc [⟨some ("0,1,25,16777215,0"), some ("hi")⟩]

/-- Occupant start time of a lane as `find_alternative_row` reads it
(`self.rows[c[4]][row][0]`, with default 0 for the never-read empty case). -/
def occT (st : EngineState) (c : Comment) (j : ℕ) : ℚ :=
  ((gridGet st.rows (laneIndex c.c4) j).map Comment.c0).getD 0

/-- Engine for the reachable `find_alternative_row` scenario: canvas 10x3,
still duration 5. -/
def c7engine0 : EngineState := mkEngine 10 3 0 ("F") 1 1 15 5 ("s")

/-- First top comment of the scenario, height 1, t = 0. -/
def c7comX : Comment := ⟨0, 0, 0, "x", CMode.int 1, 0xffffff, 1, 1, 1⟩

/-- Second top comment, height 1, t = 0.9 (lands on lane 1 while X blocks
lane 0). -/
def c7comY : Comment := ⟨9/10, 0, 1, "y", CMode.int 1, 0xffffff, 1, 1, 1⟩

/-- Third top comment, height 1, t = 5.1 (X has expired: overwrites lane 0). -/
def c7comZ : Comment := ⟨51/10, 0, 2, "z", CMode.int 1, 0xffffff, 1, 1, 1⟩

/-- Fourth top comment, height 2, t = 5.5: no free run of 2 lanes exists. -/
def c7comC : Comment := ⟨11/2, 0, 3, "c", CMode.int 1, 0xffffff, 2, 2, 2⟩

/-- Engine state after processing X, Y, Z in timestamp order from fresh:
lane 0 holds Z (t = 5.1), lane 1 holds Y (t = 0.9), lanes 2-3 empty. -/
def c7engine3 : EngineState :=
  let s1 : EngineState := { c7engine0 with rows := (allocate c7engine0 c7comX).2 }
  let s2 : EngineState := { s1 with rows := (allocate s1 c7comY).2 }
  { s2 with rows := (allocate s2 c7comZ).2 }

/-- Occupied lane for the C7 witness grid, t = 5. -/
def c7wOccA : Comment := ⟨5, 0, 0, "a", CMode.int 1, 0xffffff, 1, 1, 1⟩

/-- Second occupied lane for the C7 witness grid, t = 0. -/
def c7wOccB : Comment := ⟨0, 0, 1, "b", CMode.int 1, 0xffffff, 1, 1, 1⟩

/-- Comment to place in the C7 witness scenario: height 2 at t = 1. -/
def c7wCom : Comment := ⟨1, 0, 2, "c", CMode.int 1, 0xffffff, 2, 2, 2⟩

/-- Engine for the C7 witness: canvas 10x4, lane track 1 holds occupants at
lanes 0 and 2 with lane 1 empty. -/
def c7wEngine : EngineState :=
  ⟨10, 4, 0, "F", 1, 1, 15, 5, "s",
    [[], [some c7wOccA, Option.none, some c7wOccB, Option.none, Option.none], [], []]⟩

/-! # Theorems -/

theorem ratFloor_eq (q : ℚ) : ratFloor q = ⌊q⌋ := by
  rw [ratFloor, Rat.floor_def' q, Rat.floor_def]


theorem ratCeil_eq (q : ℚ) : ratCeil q = ⌈q⌉ := by
  rw [ratCeil, ratFloor_eq, Int.floor_neg, neg_neg]


/-- C4, counterexample: the claim pins `format_timestamp(3661.005)` as
`"1:01:01.01"`, but `convert_timestamp` yields `"1:01:01.00"`: the product
`3661.005 * 100` is exactly the tie `366100.5` (in IEEE doubles just as in
exact arithmetic) and Python `round` rounds half to even, giving `366100`
centiseconds, not `366101`. -/
theorem c4_timestamp_counterexample :
    convert_timestamp (3661005/1000) = "1:01:01.00" ∧
    ("1:01:01.00" : String) ≠ "1:01:01.01" :=
  ⟨by decide, by decide⟩

/-- C4, amended: `format_timestamp(0) = "0:00:00.00"` and
`format_timestamp(3661.005) = "1:01:01.00"`; the centisecond value is rounded
with Python `round` — half to even, as witnessed by `0.005 → ".00"` and
`0.015 → ".02"` — with hours unpadded and minutes/seconds/centiseconds
zero-padded to two digits. -/
theorem c4_timestamp_amended :
    convert_timestamp 0 = "0:00:00.00" ∧
    convert_timestamp (3661005/1000) = "1:01:01.00" ∧
    convert_timestamp (5/1000) = "0:00:00.00" ∧
    convert_timestamp (15/1000) = "0:00:00.02" :=
  ⟨by decide, by decide, by decide, by decide⟩

/-- C8, counterexample: the float value `-1.0` is not in `(0, 1]`, yet
`get_position` resolves it through the fractional branch (`672 * scale * v`),
not as an absolute coordinate (`scale * v = -1` at unit zoom); and the
non-numeric input `None` raises `TypeError` instead of resolving to 0. -/
theorem c8_get_position_counterexample :
    get_position (.float (-1)) false (1, 0, 0) = .ok (-672) ∧
    ((-672 : ℚ) ≠ 1 * (-1) + 0) ∧
    get_position PyVal.none false (1, 0, 0) = .error .typeError :=
  ⟨by decide, by decide, by decide⟩

/-- C8, amended: `get_position` resolves a float-typed value as a fraction of
the legacy 672x438 canvas exactly when the value is `≤ 1` (including 0 and
negative values); ints and floats `> 1` are absolute pixel coordinates scaled
and offset by the zoom factor; a string is parsed as a float and treated as
one, an unparsable string resolves to 0 without error, and `None` raises
`TypeError`. -/
theorem c8_get_position_amended (zf : ℚ × ℚ × ℚ) (b : Bool) :
    (∀ q : ℚ, q ≤ 1 →
      get_position (.float q) b zf =
        .ok ((if b then (438 : ℚ) else 672) * zf.1 * q +
          (if b then zf.2.2 else zf.2.1))) ∧
    (∀ q : ℚ, 1 < q →
      get_position (.float q) b zf =
        .ok (zf.1 * q + (if b then zf.2.2 else zf.2.1))) ∧
    (∀ n : ℤ, get_position (.int n) b zf =
      .ok (zf.1 * (n : ℚ) + (if b then zf.2.2 else zf.2.1))) ∧
    (∀ s : String, parseDecimal s.data = Option.none →
      get_position (.str s) b zf = .ok 0) ∧
    (∀ s : String, ∀ q : ℚ, parseDecimal s.data = some q →
      get_position (.str s) b zf = get_position (.float q) b zf) ∧
    get_position PyVal.none b zf = .error .typeError := by
  refine ⟨?_, ?_, ?_, ?_, ?_, rfl⟩
  · intro q hq
    simp [get_position, hq]
  · intro q hq
    simp [get_position, not_le.mpr hq]
  · intro n
    simp [get_position]
  · intro s hs
    simp [get_position, hs]
  · intro s q hs
    simp [get_position, hs]

/-- C8, witness: instantiating the amended characterization at the boundary
float `1.0` under unit zoom. -/
theorem c8_get_position_witness :
    get_position (.float 1) false (1, 0, 0) = .ok 672 := by
  have h := (c8_get_position_amended (1, 0, 0) false).1 1 (by norm_num)
  simpa using h

/-- C1, evaluation at the failing input: a well-formed positioned (mode 7)
record — descriptor `[0, 0, "1", 4500, "txt"]` — makes
`write_bilibili_positioned` raise `AttributeError` out of `convert` (line 180
assigns an attribute on a bound method, outside the `try` of line 181), so the
run aborts instead of emitting one event.  Moreover, even with the intended
zoom factor in hand, a descriptor whose x field is JSON `null` raises
`TypeError` from `float(None)`, which `except (IndexError, ValueError)` does
not catch either. -/
theorem c1_positioned_abort_eval :
    write_bilibili_positioned_outcome 1920 1080
      (some [.int 0, .int 0, .str ("1"), .int 4500, .str ("txt")]) =
      .raised .attributeError ∧
    bilibiliPositionedBody (zoom_factor_value 1920 1080 (672, 438))
      (some [PyVal.none, .int 0, .str ("1"), .int 4500, .str ("txt")]) =
      .raised .typeError :=
  ⟨by decide, by decide⟩

/-- C3, counterexample: a totally unparsable container and a well-formed
container with zero comments produce the *same* result — Python `None` — so
the empty result is not distinguishable from "zero comments present". -/
theorem c3_empty_counterexample :
    (convert renderPosStub engA XmlInput.malformed
        Option.none Option.none Option.none Option.none).1 =
      (convert renderPosStub engA (XmlInput.doc [])
        Option.none Option.none Option.none Option.none).1 ∧
    (convert renderPosStub engA XmlInput.malformed
        Option.none Option.none Option.none Option.none).1 = Option.none :=
  ⟨by decide, by decide⟩

/-- C3, amended: for a totally unparsable container `convert` returns `None`
(no output), and a well-formed container carrying zero comments returns the
same `None` — the two cases are not distinguishable from the result. -/
theorem c3_empty_amended (rp : EngineState → Comment → String)
    (st : EngineState) (ufs ua : Option ℚ) (up : Option String)
    (uc : Option ℤ) :
    (convert rp st XmlInput.malformed ufs ua up uc).1 = Option.none ∧
    (convert rp st (XmlInput.doc []) ufs ua up uc).1 = Option.none := by
  constructor <;> rfl

/-- C2, counterexample: two fresh engine instances with identical constructor
configuration draw different random style identifiers, and the identifier is
embedded in the output, so `convert` on the same input yields different
strings. -/
theorem c2_styleid_counterexample :
    (convert renderPosStub engA xmlOneScroll
        Option.none Option.none Option.none Option.none).1 ≠
      (convert renderPosStub engB xmlOneScroll
        Option.none Option.none Option.none Option.none).1 := by
  decide

/-- C2, amended: with the style identifier held constant, `convert` is a pure
function of the configuration, the identifier and the input: in particular the
output never depends on the pre-call lane grid, which is reset before use, so
fresh instances with equal identifiers produce byte-identical output. -/
theorem c2_determinism_amended (rp : EngineState → Comment → String)
    (w h br : ℤ) (fn : String) (fs al dm ds : ℚ) (sid : String)
    (rows1 rows2 : Grid) (xml : XmlInput) (ufs ua : Option ℚ)
    (up : Option String) (uc : Option ℤ) :
    (convert rp ⟨w, h, br, fn, fs, al, dm, ds, sid, rows1⟩ xml ufs ua up uc).1 =
      (convert rp ⟨w, h, br, fn, fs, al, dm, ds, sid, rows2⟩ xml ufs ua up uc).1 := by
  rfl

/-- Per-comment dispatch changes only the `rows` component of the engine
state. -/
theorem dispatchComment_keeps_config (rp : EngineState → Comment → String)
    (up : Option String) (uc : Option ℤ) (acc : EngineState × String)
    (c : Comment) :
    (dispatchComment rp up uc acc c).1.font_size = acc.1.font_size ∧
    (dispatchComment rp up uc acc c).1.alpha = acc.1.alpha := by
  cases hc : c.c4 <;> simp [dispatchComment, hc]

/-- The render fold keeps `font_size` and `alpha` of its starting state. -/
theorem foldl_dispatch_keeps_config (rp : EngineState → Comment → String)
    (up : Option String) (uc : Option ℤ) (l : List Comment)
    (acc : EngineState × String) :
    (l.foldl (dispatchComment rp up uc) acc).1.font_size = acc.1.font_size ∧
    (l.foldl (dispatchComment rp up uc) acc).1.alpha = acc.1.alpha := by
  induction l generalizing acc with
  | nil => exact ⟨rfl, rfl⟩
  | cons c tl ih =>
    have h1 := dispatchComment_keeps_config rp up uc acc c
    have h2 := ih (dispatchComment rp up uc acc c)
    exact ⟨h2.1.trans h1.1, h2.2.trans h1.2⟩

/-- C9, amended: `convert` *does* persist state on the instance — it stores
`user_font_size or font_size` and `user_alpha or alpha` back into the engine,
so a later call that omits the override inherits the earlier call's value; the
lane grid, in contrast, is reset on entry, so the output never depends on the
grid the instance carried in. -/
theorem c9_state_amended (rp : EngineState → Comment → String)
    (st : EngineState) (xml : XmlInput) (ufs ua : Option ℚ)
    (up : Option String) (uc : Option ℤ) :
    (convert rp st xml ufs ua up uc).2.font_size = pyOr ufs st.font_size ∧
    (convert rp st xml ufs ua up uc).2.alpha = pyOr ua st.alpha ∧
    ∀ g : Grid, (convert rp { st with rows := g } xml ufs ua up uc).1 =
      (convert rp st xml ufs ua up uc).1 := by
  refine ⟨?_, ?_, fun g => rfl⟩ <;>
  · simp only [convert]
    split
    · rfl
    · simp [foldl_dispatch_keeps_config]

/-- C9, counterexample: passing `user_font_size = 2` to a first `convert` call
mutates the instance, so a second call with no override returns a different
string than the same call on a fresh instance — the second result depends on
the first call's override. -/
theorem c9_state_counterexample :
    (convert renderPosStub
        (convert renderPosStub engA xmlOneScroll (some 2)
          Option.none Option.none Option.none).2
        xmlOneScroll Option.none Option.none Option.none Option.none).1 ≠
      (convert renderPosStub engA xmlOneScroll
        Option.none Option.none Option.none Option.none).1 := by
  decide

/-- Leading spaces strip off through `lstrip`. -/
theorem lstripSp_replicate_append (a : ℕ) (l : List Char) :
    lstripSp (List.replicate a ' ' ++ l) = lstripSp l := by
  induction a with
  | zero => simp
  | succ k ih => simp only [lstripSp, List.replicate_succ, List.cons_append,
      List.dropWhile_cons_of_pos, decide_eq_true_eq] at ih ⊢; exact ih

/-- A list opening with a non-space survives `lstrip` unchanged. -/
theorem lstripSp_of_head_ne (l : List Char) (h : l.head? ≠ some ' ') :
    lstripSp l = l := by
  cases l with
  | nil => rfl
  | cons c tl =>
    have hc : c ≠ ' ' := by simpa using h
    simp [lstripSp, hc]

/-- Trailing spaces strip off through `rstrip`. -/
theorem rstripSp_append_replicate (l : List Char) (b : ℕ) :
    rstripSp (l ++ List.replicate b ' ') = rstripSp l := by
  unfold rstripSp
  rw [List.reverse_append, List.reverse_replicate]
  congr 1
  exact lstripSp_replicate_append b l.reverse

/-- Unfolding `rstrip` as `lstrip` through reversal. -/
theorem rstripSp_eq (l : List Char) : rstripSp l = (lstripSp l.reverse).reverse := rfl

/-- A list closing with a non-space survives `rstrip` unchanged. -/
theorem rstripSp_of_last_ne (l : List Char) (h : l.getLast? ≠ some ' ') :
    rstripSp l = l := by
  rw [rstripSp_eq,
    lstripSp_of_head_ne l.reverse (by simpa [List.head?_reverse] using h),
    l.reverse_reverse]

/-- C10: per split line of the escaped text, an empty line is emitted as one
ordinary space; a line of only `n ≥ 1` spaces is emitted as `2 * n` figure
spaces, because the leading-run and trailing-run lengths are each measured
over the whole line and concatenated; and a line with non-space text at both
fringes of its space runs has exactly those runs replaced by equally long
figure-space runs. -/
theorem c10_ass_escape_lines (n a b : ℕ) (m : List Char) (hn : 1 ≤ n)
    (hm : m ≠ []) (hh : m.head? ≠ some ' ') (hl : m.getLast? ≠ some ' ') :
    processLine [] = [' '] ∧
    processLine (List.replicate n ' ') = List.replicate (2 * n) figureSpace ∧
    processLine (List.replicate a ' ' ++ m ++ List.replicate b ' ') =
      List.replicate a figureSpace ++ m ++ List.replicate b figureSpace := by
  refine ⟨rfl, ?_, ?_⟩
  · have hl1 : lstripSp (List.replicate n ' ') = [] := by
      simpa using lstripSp_replicate_append n []
    have hr1 : rstripSp (List.replicate n ' ') = [] := by
      simpa using rstripSp_append_replicate [] n
    have hs1 : stripSp (List.replicate n ' ') = [] := by
      rw [stripSp, hl1]; rfl
    have hne : ¬ (List.replicate n ' ').length = ([] : List Char).length := by
      simp; omega
    rw [processLine, replaceLeadingSpace]
    simp only [hs1, hl1, hr1, hne, if_false]
    have : (List.replicate n ' ').length = n := List.length_replicate n ' '
    rw [this]
    simp only [List.length_nil, Nat.sub_zero, List.append_nil]
    rw [List.append_replicate_replicate]
    have hnn : n + n = 2 * n := by omega
    rw [hnn]
    have hne2 : List.replicate (2 * n) figureSpace ≠ [] := by
      intro hcontra
      have := congrArg List.length hcontra
      simp at this
      omega
    simp [hne2]
  · have hlt : lstripSp (List.replicate a ' ' ++ m ++ List.replicate b ' ') =
        m ++ List.replicate b ' ' := by
      rw [List.append_assoc, lstripSp_replicate_append]
      exact lstripSp_of_head_ne _ (by
        cases m with
        | nil => exact absurd rfl hm
        | cons c tl => simpa using hh)
    have hrt : rstripSp (List.replicate a ' ' ++ m ++ List.replicate b ' ') =
        List.replicate a ' ' ++ m := by
      rw [rstripSp_append_replicate]
      refine rstripSp_of_last_ne _ ?_
      obtain ⟨x, hx⟩ := Option.isSome_iff_exists.mp (List.getLast?_isSome.mpr hm)
      rw [List.getLast?_append, hx]
      rw [hx] at hl
      exact hl
    have hst : stripSp (List.replicate a ' ' ++ m ++ List.replicate b ' ') = m := by
      rw [stripSp, hlt, rstripSp_append_replicate]
      exact rstripSp_of_last_ne m hl
    have hlen : (List.replicate a ' ' ++ m ++ List.replicate b ' ').length =
        a + m.length + b := by
      rw [List.length_append, List.length_append, List.length_replicate,
        List.length_replicate]
    by_cases hab : a = 0 ∧ b = 0
    · obtain ⟨ha, hb⟩ := hab
      subst ha; subst hb
      have heq : (List.replicate 0 ' ' ++ m ++ List.replicate 0 ' ').length =
          (stripSp (List.replicate 0 ' ' ++ m ++ List.replicate 0 ' ')).length := by
        rw [hst]; simp
      rw [processLine, replaceLeadingSpace]
      simp only [heq, if_pos]
      simp [hm]
    · have hne : ¬ (List.replicate a ' ' ++ m ++ List.replicate b ' ').length =
          (stripSp (List.replicate a ' ' ++ m ++ List.replicate b ' ')).length := by
        rw [hst, hlen]; omega
      rw [processLine, replaceLeadingSpace]
      simp only [hst, hlt, hrt, hlen, hne, if_false]
      have hleft : a + m.length + b - (m ++ List.replicate b ' ').length = a := by
        simp only [List.length_append, List.length_replicate]
        omega
      have hright : a + m.length + b - (List.replicate a ' ' ++ m).length = b := by
        simp only [List.length_append, List.length_replicate]
        omega
      rw [hleft, hright]
      have hcond : ¬(a + m.length + b = m.length) := by omega
      simp [hcond, hm]

/-! ## Grid lemmas for the lane allocator -/

/-- Reading a set list at an arbitrary index. -/
theorem getD_set_eq_ite {α : Type} (l : List α) (i j : ℕ) (x d : α) :
    (l.set i x).getD j d = if i = j ∧ i < l.length then x else l.getD j d := by
  induction l generalizing i j with
  | nil => simp
  | cons hd tl ih =>
    cases i with
    | zero =>
      cases j with
      | zero => simp
      | succ j2 => simp
    | succ i2 =>
      cases j with
      | zero => simp
      | succ j2 =>
        simp only [List.set, List.getD_cons_succ, List.length_cons, ih i2 j2]
        by_cases hij : i2 = j2 <;> by_cases hlen : i2 < tl.length <;>
          simp [hij, hlen]

/-- Reading a replicated list. -/
theorem getD_replicate_eq_ite {α : Type} (n i : ℕ) (a d : α) :
    (List.replicate n a).getD i d = if i < n then a else d := by
  induction n generalizing i with
  | zero => simp
  | succ k ih =>
    cases i with
    | zero => simp [List.replicate_succ]
    | succ i2 =>
      rw [List.replicate_succ, List.getD_cons_succ, ih i2]
      simp [Nat.succ_lt_succ_iff]

/-- The fresh grid is empty everywhere. -/
theorem gridGet_freshGrid (h br : ℤ) (m r : ℕ) :
    gridGet (freshGrid h br) m r = Option.none := by
  unfold gridGet freshGrid
  rw [getD_replicate_eq_ite]
  by_cases hm : m < 4
  · simp only [hm, if_true]
    rw [getD_replicate_eq_ite]
    by_cases hr : r < (h - br + 1).toNat <;> simp [hr]
  · simp [hm]

/-- Writing one lane preserves the number of tracks. -/
theorem gridSet_length (g : Grid) (m r : ℕ) (c : Comment) :
    (gridSet g m r c).length = g.length := by
  simp [gridSet]

/-- Writing one lane preserves every track's length. -/
theorem gridSet_track_length (g : Grid) (m r : ℕ) (c : Comment) (m2 : ℕ) :
    ((gridSet g m r c).getD m2 []).length = (g.getD m2 []).length := by
  unfold gridSet
  rw [getD_set_eq_ite]
  by_cases hm : m = m2 ∧ m < g.length
  · obtain ⟨h1, h2⟩ := hm
    subst h1
    simp [h2, List.length_set]
  · simp [hm]

/-- Reading back a lane write at the written spot. -/
theorem gridGet_gridSet_eq (g : Grid) (m r : ℕ) (c : Comment)
    (hm : m < g.length) (hr : r < (g.getD m []).length) :
    gridGet (gridSet g m r c) m r = some c := by
  unfold gridGet gridSet
  rw [getD_set_eq_ite, if_pos ⟨rfl, hm⟩, getD_set_eq_ite, if_pos ⟨rfl, hr⟩]

/-- Reading a lane write anywhere else. -/
theorem gridGet_gridSet_ne (g : Grid) (m r : ℕ) (c : Comment) (m2 r2 : ℕ)
    (h : ¬(m = m2 ∧ r = r2)) :
    gridGet (gridSet g m r c) m2 r2 = gridGet g m2 r2 := by
  unfold gridGet gridSet
  rw [getD_set_eq_ite]
  by_cases hm : m = m2 ∧ m < g.length
  · obtain ⟨hm1, hm2⟩ := hm
    subst hm1
    have hr : r ≠ r2 := fun hc => h ⟨rfl, hc⟩
    rw [if_pos ⟨rfl, hm2⟩, getD_set_eq_ite]
    simp [hr]
  · simp [hm]

/-- The marking fold leaves every lane outside the written span (or outside
the comment's track) unchanged. -/
theorem gridGet_markFold_out (lane : ℕ) (c : Comment) (k : ℕ) :
    ∀ (row : ℕ) (g : Grid) (m r : ℕ), ¬(m = lane ∧ row ≤ r ∧ r < row + k) →
    gridGet ((List.range' row k).foldl (fun g2 i => gridSet g2 lane i c) g) m r =
      gridGet g m r := by
  induction k with
  | zero => intro row g m r h; simp
  | succ k2 ih =>
    intro row g m r h
    rw [List.range'_succ, List.foldl_cons]
    rw [ih (row + 1) (gridSet g lane row c) m r (by omega)]
    exact gridGet_gridSet_ne g lane row c m r (by omega)

/-- The marking fold writes the comment into every in-bounds lane of the
written span. -/
theorem gridGet_markFold_in (lane : ℕ) (c : Comment) (k : ℕ) :
    ∀ (row : ℕ) (g : Grid) (r : ℕ), row ≤ r → r < row + k →
    lane < g.length → r < (g.getD lane []).length →
    gridGet ((List.range' row k).foldl (fun g2 i => gridSet g2 lane i c) g) lane r =
      some c := by
  induction k with
  | zero => intro row g r h1 h2; omega
  | succ k2 ih =>
    intro row g r h1 h2 hm hr
    rw [List.range'_succ, List.foldl_cons]
    by_cases heq : r = row
    · subst heq
      rw [gridGet_markFold_out lane c k2 (r + 1) _ lane r (by omega)]
      exact gridGet_gridSet_eq g lane r c hm hr
    · refine ih (row + 1) (gridSet g lane row c) r (by omega) (by omega) ?_ ?_
      · rw [gridSet_length]; exact hm
      · rw [gridSet_track_length]; exact hr

/-! ## Scan-loop lemmas for the lane allocator -/

/-- One non-blocking step of the free-lane scan: when the lane at `row` is
empty or holds a non-blocking occupant, the scan moves on, counting the lane
as free (whether or not it equals the remembered `target`). -/
theorem tfrAux_step (st : EngineState) (c : Comment) (blocks : Comment → Bool)
    (fuel row res : ℕ) (target : Option Comment)
    (h : row < rowmaxNat st ∧ (res : ℚ) < c.c7)
    (hnb : ∀ occ, gridGet st.rows (laneIndex c.c4) row = some occ → blocks occ = false) :
    tfrAux st c blocks (fuel + 1) row res target =
      tfrAux st c blocks fuel (row + 1) (res + 1) (gridGet st.rows (laneIndex c.c4) row) := by
  rw [tfrAux, if_pos h]
  by_cases hne : gridGet st.rows (laneIndex c.c4) row ≠ target
  · cases hcase : gridGet st.rows (laneIndex c.c4) row with
    | none =>
      simp only [hcase, hne, if_true]
      simp [hcase]
      exact fun h2 => by rw [h2]
    | some occ =>
      simp only [hcase, hne, if_true]
      simp [hcase, hnb occ hcase]
      exact fun h2 => by rw [h2]
  · push_neg at hne
    simp [hne]

/-- If no lane from `row` on holds a blocking occupant, the fuel covers the
range and the remaining range is long enough, the scan reports at least
`c.c7` free lanes. -/
theorem tfrAux_no_block (st : EngineState) (c : Comment) (blocks : Comment → Bool) :
    ∀ (fuel row res : ℕ) (target : Option Comment),
    rowmaxNat st - row ≤ fuel →
    (∀ j occ, row ≤ j → j < rowmaxNat st →
      gridGet st.rows (laneIndex c.c4) j = some occ → blocks occ = false) →
    c.c7 ≤ (res : ℚ) + ((rowmaxNat st - row : ℕ) : ℚ) →
    c.c7 ≤ (tfrAux st c blocks fuel row res target : ℚ) := by
  intro fuel
  induction fuel with
  | zero =>
    intro row res target hn hocc hbound
    have h0 : rowmaxNat st - row = 0 := by omega
    rw [tfrAux]
    rw [h0] at hbound; simpa using hbound
  | succ n2 ih =>
    intro row res target hn hocc hbound
    by_cases hc : row < rowmaxNat st ∧ (res : ℚ) < c.c7
    · rw [tfrAux_step st c blocks n2 row res target hc
        (fun occ hg => hocc row occ le_rfl hc.1 hg)]
      refine ih (row + 1) (res + 1) _ (by omega)
        (fun j occ hj1 hj2 hg => hocc j occ (by omega) hj2 hg) ?_
      have hsplit : rowmaxNat st - row = (rowmaxNat st - (row + 1)) + 1 := by omega
      rw [hsplit] at hbound
      push_cast at hbound ⊢
      linarith
    · rw [tfrAux, if_neg hc]
      rcases not_and_or.mp hc with hrow | hres
      · have h0 : rowmaxNat st - row = 0 := by omega
        rw [h0] at hbound; simpa using hbound
      · exact le_of_not_lt hres

/-- A blocking occupant at the starting row stops the scan at zero free
lanes (for any nonzero fuel). -/
theorem tfrAux_blocked (st : EngineState) (c : Comment) (blocks : Comment → Bool)
    (fuel row : ℕ) (occ : Comment) (hfuel : fuel ≠ 0)
    (hrow : row < rowmaxNat st) (h7 : 0 < c.c7)
    (hocc : gridGet st.rows (laneIndex c.c4) row = some occ)
    (hb : blocks occ = true) :
    tfrAux st c blocks fuel row 0 Option.none = 0 := by
  obtain ⟨f, rfl⟩ := Nat.exists_eq_succ_of_ne_zero hfuel
  rw [tfrAux, if_pos ⟨hrow, by exact_mod_cast h7⟩]
  simp [hocc, hb]

/-- The row search returns the first row reaching the required count. -/
theorem ffrAux_finds (st : EngineState) (c : Comment) (bound : ℕ) (r0 : ℕ)
    (hr0 : r0 < bound)
    (hfail : ∀ j, j < r0 → ¬ (c.c7 ≤ (test_free_rows st c j : ℚ)))
    (hit : c.c7 ≤ (test_free_rows st c r0 : ℚ)) :
    ∀ (fuel row : ℕ), bound - row ≤ fuel → row ≤ r0 →
    ffrAux st c bound fuel row = some r0 := by
  intro fuel
  induction fuel with
  | zero =>
    intro row hn hle
    omega
  | succ n2 ih =>
    intro row hn hle
    by_cases heq : row = r0
    · subst heq
      rw [ffrAux, if_pos hr0, if_pos hit]
    · have hlt : row < r0 := by omega
      rw [ffrAux, if_pos (by omega), if_neg (hfail row hlt)]
      exact ih (row + 1) (by omega) (by omega)

/-- The row search fails when no row in range reaches the required count. -/
theorem ffrAux_none (st : EngineState) (c : Comment) (bound : ℕ)
    (hfail : ∀ j, j < bound → ¬ (c.c7 ≤ (test_free_rows st c j : ℚ))) :
    ∀ (fuel row : ℕ), ffrAux st c bound fuel row = Option.none := by
  intro fuel
  induction fuel with
  | zero =>
    intro row
    rw [ffrAux]
  | succ n2 ih =>
    intro row
    by_cases hrow : row < bound
    · rw [ffrAux, if_pos hrow, if_neg (hfail row hrow)]
      exact ih (row + 1)
    · rw [ffrAux, if_neg hrow]

/-- Unfolding `allocate` when the row search succeeds. -/
theorem allocate_eq_of_find (st : EngineState) (c : Comment) (row : ℕ)
    (h : findFreeRow st c = some row) :
    allocate st c = (row, mark_comment_row st c row) := by
  unfold allocate
  rw [h]

/-- Unfolding `allocate` when the row search fails. -/
theorem allocate_eq_of_none (st : EngineState) (c : Comment)
    (h : findFreeRow st c = Option.none) :
    allocate st c = (find_alternative_row st c,
      mark_comment_row st c (find_alternative_row st c)) := by
  unfold allocate
  rw [h]

/-- C6: for a batch of exactly two top-mode comments of the same font size
that both fit the canvas (formalized: `ceil(height1) + 1 + height2 ≤
canvas_height − bottom_reserved`, so the two can even be displayed stacked),
processed in timestamp order from a fresh grid: if the first occupant's
`start_time + duration_still` is at most the second comment's timestamp, both
are assigned lane 0 (reuse once expired); if their display windows overlap,
the second is assigned lane `ceil(height1) ≥ 1`, different from lane 0. -/
theorem c6_top_lane_allocation (w h br : ℤ) (fn : String) (fs al dm ds : ℚ)
    (sid : String) (c1 c2 : Comment)
    (hm1 : c1.c4 = CMode.int 1) (hm2 : c2.c4 = CMode.int 1)
    (hsz : c1.c6 = c2.c6) (h1 : 0 < c1.c7) (h2 : 0 < c2.c7)
    (hfit : (ratCeil c1.c7 : ℚ) + 1 + c2.c7 ≤ (h : ℚ) - (br : ℚ)) :
    (c1.c0 + ds ≤ c2.c0 →
      (allocate { mkEngine w h br fn fs al dm ds sid with
          rows := (allocate (mkEngine w h br fn fs al dm ds sid) c1).2 } c2).1 =
        (allocate (mkEngine w h br fn fs al dm ds sid) c1).1) ∧
    (c1.c0 ≤ c2.c0 → c2.c0 < c1.c0 + ds →
      (allocate { mkEngine w h br fn fs al dm ds sid with
          rows := (allocate (mkEngine w h br fn fs al dm ds sid) c1).2 } c2).1 ≠
        (allocate (mkEngine w h br fn fs al dm ds sid) c1).1) := by
  have hc1le : c1.c7 ≤ ((ratCeil c1.c7 : ℤ) : ℚ) := by
    rw [ratCeil_eq]; exact_mod_cast Int.le_ceil c1.c7
  have hceil1 : (1 : ℤ) ≤ ratCeil c1.c7 := by
    rw [ratCeil_eq]; exact Int.ceil_pos.mpr h1
  have hceil1q : (1 : ℚ) ≤ ((ratCeil c1.c7 : ℤ) : ℚ) := by exact_mod_cast hceil1
  set st0 := mkEngine w h br fn fs al dm ds sid with hst0
  set k1 := (ratCeil c1.c7).toNat with hk1
  have hk1z : (k1 : ℤ) = ratCeil c1.c7 := Int.toNat_of_nonneg (by omega)
  have hk1q : (k1 : ℚ) = ((ratCeil c1.c7 : ℤ) : ℚ) := by exact_mod_cast hk1z
  have hk1pos : 1 ≤ k1 := by omega
  have hRnonneg : (0 : ℤ) ≤ h - br := by
    have : (0 : ℚ) < (h : ℚ) - br := by linarith
    have h2' : (0 : ℚ) < ((h - br : ℤ) : ℚ) := by push_cast; linarith
    exact_mod_cast h2'.le
  have hRcast : (((h - br).toNat : ℕ) : ℚ) = (h : ℚ) - br := by
    have h1' : (((h - br).toNat : ℕ) : ℤ) = h - br := Int.toNat_of_nonneg hRnonneg
    have := congrArg (fun z : ℤ => (z : ℚ)) h1'
    push_cast at this ⊢
    linarith [this]
  have hrowmax0 : rowmaxNat st0 = (h - br).toNat := rfl
  have hk1le : k1 ≤ (h - br).toNat := by
    have hq : ((k1 : ℤ) : ℚ) ≤ ((h - br : ℤ) : ℚ) := by
      rw [hk1z]; push_cast; linarith
    have : (k1 : ℤ) ≤ h - br := by exact_mod_cast hq
    omega
  have hlane1 : laneIndex c1.c4 = 1 := by rw [hm1]; rfl
  have hlane12 : laneIndex c2.c4 = laneIndex c1.c4 := by rw [hm1, hm2]
  have hlanelen : ((st0.rows.getD (laneIndex c1.c4) []).length) = (h - br + 1).toNat := by
    rw [hlane1]
    show (((freshGrid h br).getD 1 []).length) = (h - br + 1).toNat
    rw [freshGrid, getD_replicate_eq_ite]
    norm_num
  have hlanenum : laneIndex c1.c4 < st0.rows.length := by
    rw [hlane1]
    show 1 < (freshGrid h br).length
    rw [freshGrid]
    simp
  -- Step A: the first comment lands on row 0 of the fresh grid.
  have hocc0 : ∀ j occ, 0 ≤ j → j < rowmaxNat st0 →
      gridGet st0.rows (laneIndex c1.c4) j = some occ →
      vertBlocks st0 c1 occ = false := by
    intro j occ _ _ hg
    have : gridGet st0.rows (laneIndex c1.c4) j = Option.none := gridGet_freshGrid h br _ j
    rw [this] at hg
    cases hg
  have htfr0 : c1.c7 ≤ (test_free_rows st0 c1 0 : ℚ) := by
    rw [test_free_rows, if_pos (Or.inl hm1)]
    refine tfrAux_no_block st0 c1 (vertBlocks st0 c1) _ 0 0 Option.none
      (by omega) hocc0 ?_
    rw [hrowmax0]
    simp only [Nat.sub_zero, Nat.cast_zero, zero_add]
    rw [hRcast]
    linarith
  have hbound1 : 1 ≤ (ratTrunc ((st0.height : ℚ) - (st0.bottom_reserved : ℚ) - c1.c7)).toNat := by
    have hq1 : (1 : ℚ) ≤ (h : ℚ) - br - c1.c7 := by linarith
    have hq0 : (0 : ℚ) ≤ (h : ℚ) - br - c1.c7 := by linarith
    show 1 ≤ (ratTrunc ((h : ℚ) - (br : ℚ) - c1.c7)).toNat
    rw [ratTrunc, if_pos hq0, ratFloor_eq]
    have : (1 : ℤ) ≤ ⌊(h : ℚ) - br - c1.c7⌋ := Int.le_floor.mpr (by exact_mod_cast hq1)
    omega
  have hfind1 : findFreeRow st0 c1 = some 0 := by
    rw [findFreeRow]
    exact ffrAux_finds st0 c1 _ 0 (by omega) (fun j hj => absurd hj (Nat.not_lt_zero j))
      htfr0 _ 0 (by omega) (by omega)
  have hfirst : allocate st0 c1 = (0, mark_comment_row st0 c1 0) :=
    allocate_eq_of_find st0 c1 0 hfind1
  -- The grid after the first placement.
  have hmarkfold : mark_comment_row st0 c1 0 =
      (List.range' 0 k1).foldl (fun g2 i => gridSet g2 (laneIndex c1.c4) i c1) st0.rows := by
    rw [mark_comment_row]
  have hg1in : ∀ r : ℕ, r < k1 →
      gridGet (mark_comment_row st0 c1 0) (laneIndex c1.c4) r = some c1 := by
    intro r hr
    rw [hmarkfold]
    refine gridGet_markFold_in (laneIndex c1.c4) c1 k1 0 st0.rows r (by omega)
      (by omega) hlanenum ?_
    rw [hlanelen]
    omega
  have hg1out : ∀ r : ℕ, k1 ≤ r →
      gridGet (mark_comment_row st0 c1 0) (laneIndex c1.c4) r = Option.none := by
    intro r hr
    rw [hmarkfold]
    rw [gridGet_markFold_out (laneIndex c1.c4) c1 k1 0 st0.rows (laneIndex c1.c4) r
      (fun hcontra => by omega)]
    exact gridGet_freshGrid h br _ r
  rw [hfirst]
  set st2 : EngineState := { st0 with rows := mark_comment_row st0 c1 0 } with hst2
  have hrowmax2 : rowmaxNat st2 = (h - br).toNat := rfl
  have hst2rows : st2.rows = mark_comment_row st0 c1 0 := rfl
  have hds2 : st2.duration_still = ds := rfl
  constructor
  · -- Non-overlapping windows: the first occupant has expired, lane 0 reused.
    intro hsep
    have hocc2 : ∀ j occ, 0 ≤ j → j < rowmaxNat st2 →
        gridGet st2.rows (laneIndex c2.c4) j = some occ →
        vertBlocks st2 c2 occ = false := by
      intro j occ _ _ hg
      rw [hst2rows, hlane12] at hg
      by_cases hj : j < k1
      · rw [hg1in j hj] at hg
        cases hg
        rw [vertBlocks, hds2]
        exact decide_eq_false (not_lt.mpr hsep)
      · rw [hg1out j (by omega)] at hg
        cases hg
    have htfr2 : c2.c7 ≤ (test_free_rows st2 c2 0 : ℚ) := by
      rw [test_free_rows, if_pos (Or.inl hm2)]
      refine tfrAux_no_block st2 c2 (vertBlocks st2 c2) _ 0 0 Option.none
        (by omega) hocc2 ?_
      rw [hrowmax2]
      simp only [Nat.sub_zero, Nat.cast_zero, zero_add]
      rw [hRcast]
      linarith
    have hbound2 : 1 ≤ (ratTrunc ((st2.height : ℚ) - (st2.bottom_reserved : ℚ) - c2.c7)).toNat := by
      have hq1 : (1 : ℚ) ≤ (h : ℚ) - br - c2.c7 := by linarith
      have hq0 : (0 : ℚ) ≤ (h : ℚ) - br - c2.c7 := by linarith
      show 1 ≤ (ratTrunc ((h : ℚ) - (br : ℚ) - c2.c7)).toNat
      rw [ratTrunc, if_pos hq0, ratFloor_eq]
      have : (1 : ℤ) ≤ ⌊(h : ℚ) - br - c2.c7⌋ := Int.le_floor.mpr (by exact_mod_cast hq1)
      omega
    have hfind2 : findFreeRow st2 c2 = some 0 := by
      rw [findFreeRow]
      exact ffrAux_finds st2 c2 _ 0 (by omega) (fun j hj => absurd hj (Nat.not_lt_zero j))
        htfr2 _ 0 (by omega) (by omega)
    rw [allocate_eq_of_find st2 c2 0 hfind2]
  · -- Overlapping windows: rows 0..k1-1 are blocked, the scan lands on k1 ≠ 0.
    intro hord hover
    have hblock : ∀ j, j < k1 → ¬ (c2.c7 ≤ (test_free_rows st2 c2 j : ℚ)) := by
      intro j hj
      rw [test_free_rows, if_pos (Or.inl hm2)]
      have hjrow : j < rowmaxNat st2 := by omega
      have hgj : gridGet st2.rows (laneIndex c2.c4) j = some c1 := by
        rw [hst2rows, hlane12]; exact hg1in j hj
      rw [tfrAux_blocked st2 c2 (vertBlocks st2 c2) _ j c1 (by omega) hjrow h2 hgj
        (by rw [vertBlocks, hds2]; exact decide_eq_true hover)]
      exact not_le.mpr (by exact_mod_cast h2)
    have hocc2 : ∀ j occ, k1 ≤ j → j < rowmaxNat st2 →
        gridGet st2.rows (laneIndex c2.c4) j = some occ →
        vertBlocks st2 c2 occ = false := by
      intro j occ hj _ hg
      rw [hst2rows, hlane12, hg1out j hj] at hg
      cases hg
    have htfrk1 : c2.c7 ≤ (test_free_rows st2 c2 k1 : ℚ) := by
      rw [test_free_rows, if_pos (Or.inl hm2)]
      refine tfrAux_no_block st2 c2 (vertBlocks st2 c2) _ k1 0 Option.none
        (by omega) hocc2 ?_
      have hsub : ((rowmaxNat st2 - k1 : ℕ) : ℚ) = ((h : ℚ) - br) - k1 := by
        rw [hrowmax2]
        rw [Nat.cast_sub hk1le]
        rw [hRcast]
      rw [hsub]
      simp only [Nat.cast_zero, zero_add]
      rw [hk1q]
      linarith
    have hk1bound : k1 < (ratTrunc ((st2.height : ℚ) - (st2.bottom_reserved : ℚ) - c2.c7)).toNat := by
      have hq1 : ((k1 : ℚ) + 1) ≤ (h : ℚ) - br - c2.c7 := by
        rw [hk1q]; linarith
      have hq0 : (0 : ℚ) ≤ (h : ℚ) - br - c2.c7 := by
        have := hceil1q
        linarith
      show k1 < (ratTrunc ((h : ℚ) - (br : ℚ) - c2.c7)).toNat
      rw [ratTrunc, if_pos hq0, ratFloor_eq]
      have : ((k1 : ℤ) + 1) ≤ ⌊(h : ℚ) - br - c2.c7⌋ := Int.le_floor.mpr (by push_cast; linarith)
      omega
    have hfindk1 : findFreeRow st2 c2 = some k1 := by
      rw [findFreeRow]
      exact ffrAux_finds st2 c2 _ k1 hk1bound hblock htfrk1 _ 0 (by omega) (by omega)
    rw [allocate_eq_of_find st2 c2 k1 hfindk1]
    simp only [ne_eq]
    intro hcontra
    omega

/-- C6, witness: two concrete top comments of font size 30 and height 30 on
the default 1920x1080 canvas; timestamps 0 and 6 do not overlap under a 5s
still duration and share lane 0; timestamps 0 and 3 overlap and get different
lanes. -/
theorem c6_top_lane_allocation_witness :
    ((allocate { mkEngine 1920 1080 0 ("F") 30 1 15 5 ("s") with
        rows := (allocate (mkEngine 1920 1080 0 ("F") 30 1 15 5 ("s"))
          ⟨0, 0, 0, "a", CMode.int 1, 0xffffff, 30, 30, 60⟩).2 }
        ⟨6, 0, 1, "b", CMode.int 1, 0xffffff, 30, 30, 60⟩).1 =
      (allocate (mkEngine 1920 1080 0 ("F") 30 1 15 5 ("s"))
        ⟨0, 0, 0, "a", CMode.int 1, 0xffffff, 30, 30, 60⟩).1) ∧
    ((allocate { mkEngine 1920 1080 0 ("F") 30 1 15 5 ("s") with
        rows := (allocate (mkEngine 1920 1080 0 ("F") 30 1 15 5 ("s"))
          ⟨0, 0, 0, "a", CMode.int 1, 0xffffff, 30, 30, 60⟩).2 }
        ⟨3, 0, 1, "c", CMode.int 1, 0xffffff, 30, 30, 60⟩).1 ≠
      (allocate (mkEngine 1920 1080 0 ("F") 30 1 15 5 ("s"))
        ⟨0, 0, 0, "a", CMode.int 1, 0xffffff, 30, 30, 60⟩).1) :=
  ⟨(c6_top_lane_allocation 1920 1080 0 ("F") 30 1 15 5 ("s")
      ⟨0, 0, 0, "a", CMode.int 1, 0xffffff, 30, 30, 60⟩
      ⟨6, 0, 1, "b", CMode.int 1, 0xffffff, 30, 30, 60⟩
      rfl rfl rfl (by norm_num) (by norm_num) (by decide)).1 (by norm_num),
    (c6_top_lane_allocation 1920 1080 0 ("F") 30 1 15 5 ("s")
      ⟨0, 0, 0, "a", CMode.int 1, 0xffffff, 30, 30, 60⟩
      ⟨3, 0, 1, "c", CMode.int 1, 0xffffff, 30, 30, 60⟩
      rfl rfl rfl (by norm_num) (by norm_num) (by decide)).2 (by norm_num) (by norm_num)⟩

/-- C10, witness: the line-level behavior at the empty line, a three-space
line and a line with one leading and two trailing spaces around `hi`. -/
theorem c10_ass_escape_lines_witness :
    processLine [] = [' '] ∧
    processLine (List.replicate 3 ' ') = List.replicate (2 * 3) figureSpace ∧
    processLine (List.replicate 1 ' ' ++ ['h', 'i'] ++ List.replicate 2 ' ') =
      List.replicate 1 figureSpace ++ ['h', 'i'] ++ List.replicate 2 figureSpace :=
  c10_ass_escape_lines 3 1 2 ['h', 'i'] (by decide) (by decide) (by decide) (by decide)

/-! ## Lemmas about the fallback row (`find_alternative_row`) -/

/-- The fallback loop returns the first empty row when one exists in range —
for any running minimum `res`. -/
theorem farAux_first_empty (st : EngineState) (c : Comment) (bound r0 : ℕ)
    (hr0 : r0 < bound)
    (hempty : gridGet st.rows (laneIndex c.c4) r0 = Option.none)
    (hocc : ∀ j, j < r0 → gridGet st.rows (laneIndex c.c4) j ≠ Option.none) :
    ∀ (fuel row res : ℕ), bound - row ≤ fuel → row ≤ r0 →
    farAux st c bound fuel row res = r0 := by
  intro fuel
  induction fuel with
  | zero =>
    intro row res hn hle
    omega
  | succ f ih =>
    intro row res hn hle
    by_cases heq : row = r0
    · subst heq
      rw [farAux, if_pos hr0]
      simp [hempty]
    · have hlt : row < r0 := by omega
      obtain ⟨x, hx⟩ := Option.ne_none_iff_exists.mp (hocc row hlt)
      have hx2 : gridGet st.rows (laneIndex c.c4) row = some x := hx.symm
      rw [farAux, if_pos (by omega)]
      simp only [hx2]
      split
      · exact ih (row + 1) row (by omega) (by omega)
      · exact ih (row + 1) res (by omega) (by omega)

/-- When every row in range is occupied, the fallback loop returns the first
row carrying the minimum occupant start time: invariant-carrying induction on
the scan. -/
theorem farAux_min (st : EngineState) (c : Comment) (bound : ℕ)
    (hall : ∀ j, j < bound → gridGet st.rows (laneIndex c.c4) j ≠ Option.none) :
    ∀ (fuel row res : ℕ), bound - row ≤ fuel → row ≤ bound →
    (∀ j, j < row → occT st c res ≤ occT st c j) →
    (∀ j, j < res → occT st c res < occT st c j) →
    (∀ j, j < bound → occT st c (farAux st c bound fuel row res) ≤ occT st c j) ∧
    (∀ j, j < farAux st c bound fuel row res →
      occT st c (farAux st c bound fuel row res) < occT st c j) := by
  intro fuel
  induction fuel with
  | zero =>
    intro row res hn hle hI1 hI2
    have hrb : row = bound := by omega
    subst hrb
    rw [farAux]
    exact ⟨hI1, hI2⟩
  | succ f ih =>
    intro row res hn hle hI1 hI2
    by_cases hrow : row < bound
    · obtain ⟨occ, hx⟩ := Option.ne_none_iff_exists.mp (hall row hrow)
      have hx2 : gridGet st.rows (laneIndex c.c4) row = some occ := hx.symm
      have hoccT : occT st c row = occ.c0 := by rw [occT, hx2]; rfl
      have hstep : farAux st c bound (f + 1) row res =
          if occ.c0 < occT st c res then farAux st c bound f (row + 1) row
          else farAux st c bound f (row + 1) res := by
        rw [farAux, if_pos hrow]
        simp only [hx2]
        rfl
      rw [hstep]
      by_cases hcmp : occ.c0 < occT st c res
      · rw [if_pos hcmp]
        refine ih (row + 1) row (by omega) (by omega) ?_ ?_
        · intro j hj
          rw [hoccT]
          rcases Nat.lt_succ_iff_lt_or_eq.mp hj with hj2 | hj2
          · exact le_of_lt (lt_of_lt_of_le hcmp (hI1 j hj2))
          · subst hj2
            rw [hoccT]
        · intro j hj
          rw [hoccT]
          exact lt_of_lt_of_le hcmp (hI1 j hj)
      · rw [if_neg hcmp]
        refine ih (row + 1) res (by omega) (by omega) ?_ hI2
        intro j hj
        rcases Nat.lt_succ_iff_lt_or_eq.mp hj with hj2 | hj2
        · exact hI1 j hj2
        · subst hj2
          rw [hoccT]
          exact le_of_not_lt hcmp
    · have hrb : row = bound := by omega
      subst hrb
      rw [farAux, if_neg hrow]
      exact ⟨hI1, hI2⟩

/-- C7, amended: when no scanned row offers a fully free run, the comment is
placed by `find_alternative_row`, which searches only rows
`0 .. height − bottom_reserved − ceil(height) − 1` — one short of the full
set of rows that physically fit — and (a) returns the *first empty* row in
that range if one exists (so an empty row beats any occupant, old or not),
and only otherwise (b) returns the row whose occupant has the globally oldest
start time within that range, the first such row winning ties. -/
theorem c7_fallback_amended (st : EngineState) (c : Comment)
    (hNoFree : ∀ r, r < (ratTrunc ((st.height : ℚ) - (st.bottom_reserved : ℚ) - c.c7)).toNat →
      ¬ (c.c7 ≤ (test_free_rows st c r : ℚ))) :
    (∀ r0, r0 < (st.height - st.bottom_reserved - ratCeil c.c7).toNat →
      gridGet st.rows (laneIndex c.c4) r0 = Option.none →
      (∀ j, j < r0 → gridGet st.rows (laneIndex c.c4) j ≠ Option.none) →
      (allocate st c).1 = r0) ∧
    ((∀ j, j < (st.height - st.bottom_reserved - ratCeil c.c7).toNat →
        gridGet st.rows (laneIndex c.c4) j ≠ Option.none) →
      (∀ j, j < (st.height - st.bottom_reserved - ratCeil c.c7).toNat →
        occT st c (allocate st c).1 ≤ occT st c j) ∧
      (∀ j, j < (allocate st c).1 → occT st c (allocate st c).1 < occT st c j)) := by
  have hnone : findFreeRow st c = Option.none := by
    rw [findFreeRow]
    exact ffrAux_none st c _ hNoFree _ 0
  have halloc : (allocate st c).1 = find_alternative_row st c := by
    rw [allocate_eq_of_none st c hnone]
  constructor
  · intro r0 hr0 hempty hoccs
    rw [halloc, find_alternative_row]
    exact farAux_first_empty st c _ r0 hr0 hempty hoccs _ 0 0 (by omega) (by omega)
  · intro hall
    rw [halloc, find_alternative_row]
    exact farAux_min st c _ hall _ 0 0 (by omega) (by omega)
      (fun j hj => absurd hj (Nat.not_lt_zero j))
      (fun j hj => absurd hj (Nat.not_lt_zero j))

/-- C7, witness: on a 10x4 canvas with lane 0 occupied (t = 5), lane 1 empty
and lane 2 occupied (t = 0), a height-2 comment at t = 1 has no free run
(lanes 0 and 1 are the only scan starts and both fail), and the fallback
places it at the empty lane 1. -/
theorem c7_fallback_amended_witness : (allocate c7wEngine c7wCom).1 = 1 :=
  (c7_fallback_amended c7wEngine c7wCom (by decide)).1 1 (by decide) (by decide)
    (by decide)

/-- C7, counterexample: in a state reachable from a fresh grid by three
sorted top comments (X at t=0 lane 0, Y at t=0.9 lane 1, Z at t=5.1
overwriting lane 0), a height-2 comment at t=5.5 finds no free run, and the
code places it at lane 0 — although lane 1 also physically fits the comment
and holds the strictly older occupant Y (0.9 < 5.1): the claimed
oldest-occupant rule would choose lane 1.  The code's `range(height −
bottom_reserved − ceil(height))` stops one row short of the fitting range. -/
theorem c7_oldest_counterexample :
    (∀ r, r < (ratTrunc ((c7engine3.height : ℚ) - (c7engine3.bottom_reserved : ℚ) -
        c7comC.c7)).toNat → ¬ (c7comC.c7 ≤ (test_free_rows c7engine3 c7comC r : ℚ))) ∧
    (allocate c7engine3 c7comC).1 = 0 ∧
    gridGet c7engine3.rows 1 0 = some c7comZ ∧
    gridGet c7engine3.rows 1 1 = some c7comY ∧
    c7comY.c0 < c7comZ.c0 ∧
    (1 : ℤ) + ratCeil c7comC.c7 ≤ c7engine3.height - c7engine3.bottom_reserved :=
  ⟨by decide, by decide, by decide, by decide, by decide, by decide⟩

/-! ## C5: the flash-rotation projection at a zero wrapped angle -/

/-- Python `a % 360` for `a` already in `[0, 360)` is `a` itself. -/
theorem pymodR_eq_self (a : ℝ) (h0 : 0 ≤ a) (h1 : a < 360) : pymodR a 360 = a := by
  rw [pymodR]
  have h : ⌊a / 360⌋ = 0 := by
    rw [Int.floor_eq_zero_iff, Set.mem_Ico]
    constructor
    · positivity
    · rw [div_lt_one (show (0:ℝ) < 360 by norm_num)]
      exact h1
  rw [h]
  norm_num

/-- `WrapAngle` fixes every angle already in `(-180, 180]`. -/
theorem WrapAngle_eq_self (d : ℝ) (hlo : -180 < d) (hhi : d ≤ 180) :
    WrapAngle d = d := by
  rw [WrapAngle, pymodR_eq_self (180 - d) (by linarith) (by linarith)]
  ring

/-- `math.radians 0 = 0`. -/
theorem radiansR_zero : radiansR 0 = 0 := by
  rw [radiansR]
  ring

/-- `math.radians 45 = pi / 4`. -/
theorem radiansR_45 : radiansR 45 = Real.pi / 4 := by
  rw [radiansR]
  ring

/-- C5, amended: the projection degenerates to an identity — both scale
factors 100 and the position equal to the unprojected planar rotation about
the canvas centre — when the WRAPPED Y-ROTATION angle is zero (on a canvas of
positive width).  A zero wrapped z-rotation alone does not suffice: see the
counterexample, where `rot_z = 0` but the scale factor differs from 100. -/
theorem c5_flash_identity_amended (width height rot_y_deg rot_z_deg x y : ℝ)
    (hw : 0 < width) (hy : WrapAngle rot_y_deg = 0) :
    (convert_flash_rotation width height rot_y_deg rot_z_deg x y).scaleX = 100 ∧
    (convert_flash_rotation width height rot_y_deg rot_z_deg x y).scaleY = 100 ∧
    (convert_flash_rotation width height rot_y_deg rot_z_deg x y).x =
      x * Real.cos (radiansR (WrapAngle rot_z_deg)) +
      y * Real.sin (radiansR (WrapAngle rot_z_deg)) +
      (1 - Real.cos (radiansR (WrapAngle rot_z_deg))) * width / 2 -
      Real.sin (radiansR (WrapAngle rot_z_deg)) * height / 2 ∧
    (convert_flash_rotation width height rot_y_deg rot_z_deg x y).y =
      y * Real.cos (radiansR (WrapAngle rot_z_deg)) -
      x * Real.sin (radiansR (WrapAngle rot_z_deg)) +
      Real.sin (radiansR (WrapAngle rot_z_deg)) * width / 2 +
      (1 - Real.cos (radiansR (WrapAngle rot_z_deg))) * height / 2 := by
  have htanpos : 0 < Real.tan (2 * Real.pi / 9) := by
    refine Real.tan_pos_of_pos_of_lt_pi_div_two (by positivity) ?_
    nlinarith [Real.pi_pos]
  have hfov : width * Real.tan (2 * Real.pi / 9) / 2 ≠ 0 := by positivity
  refine ⟨?_, ?_, ?_, ?_⟩ <;>
    norm_num [convert_flash_rotation, hy, radiansR_zero, Real.sin_zero,
      Real.cos_zero, hfov, div_self]

/-- C5, witness: at width 1920 (positive) and `rot_y = 0` (its own wrapped
angle), the amended identity holds concretely for `rot_z = 30`, `x = 5`,
`y = 7`. -/
theorem c5_flash_identity_witness :
    (0 : ℝ) < 1920 ∧ WrapAngle (0 : ℝ) = 0 ∧
    ((convert_flash_rotation 1920 1080 0 30 5 7).scaleX = 100 ∧
     (convert_flash_rotation 1920 1080 0 30 5 7).scaleY = 100 ∧
     (convert_flash_rotation 1920 1080 0 30 5 7).x =
       5 * Real.cos (radiansR (WrapAngle 30)) +
       7 * Real.sin (radiansR (WrapAngle 30)) +
       (1 - Real.cos (radiansR (WrapAngle 30))) * 1920 / 2 -
       Real.sin (radiansR (WrapAngle 30)) * 1080 / 2 ∧
     (convert_flash_rotation 1920 1080 0 30 5 7).y =
       7 * Real.cos (radiansR (WrapAngle 30)) -
       5 * Real.sin (radiansR (WrapAngle 30)) +
       Real.sin (radiansR (WrapAngle 30)) * 1920 / 2 +
       (1 - Real.cos (radiansR (WrapAngle 30))) * 1080 / 2) :=
  ⟨by norm_num, WrapAngle_eq_self 0 (by norm_num) (by norm_num),
   c5_flash_identity_amended 1920 1080 0 30 5 7 (by norm_num)
     (WrapAngle_eq_self 0 (by norm_num) (by norm_num))⟩

/-- C5, counterexample: the claim promises the identity whenever EITHER
wrapped angle is zero.  Here the wrapped z-rotation is zero (`rot_z = 0`)
but `rot_y = 45`, and the returned horizontal scale factor is not 100: the
y-rotation tilts the line out of the screen plane, the perspective divide
produces a scale different from 1, so foreshortening does occur. -/
theorem c5_flash_identity_counterexample :
    WrapAngle (0 : ℝ) = 0 ∧
    (convert_flash_rotation 1920 1080 45 0 0 0).scaleX ≠ 100 := by
  have h0 : WrapAngle (0 : ℝ) = 0 := WrapAngle_eq_self 0 (by norm_num) (by norm_num)
  have h45 : WrapAngle (45 : ℝ) = 45 := WrapAngle_eq_self 45 (by norm_num) (by norm_num)
  have htlo : 2 / 3 < Real.tan (2 * Real.pi / 9) := by
    have hx1 : (0 : ℝ) < 2 * Real.pi / 9 := by positivity
    have hx2 : 2 * Real.pi / 9 < Real.pi / 2 := by nlinarith [Real.pi_pos]
    have hlt := Real.lt_tan hx1 hx2
    nlinarith [Real.pi_gt_three]
  have hthi : Real.tan (2 * Real.pi / 9) < 1 := by
    have ha : (0 : ℝ) ≤ 2 * Real.pi / 9 := by positivity
    have hb : Real.pi / 4 < Real.pi / 2 := by linarith [Real.pi_pos]
    have hc : 2 * Real.pi / 9 < Real.pi / 4 := by nlinarith [Real.pi_pos]
    have hmono := Real.tan_lt_tan_of_nonneg_of_lt_pi_div_two ha hb hc
    rwa [Real.tan_pi_div_four] at hmono
  have hs2 : Real.sqrt 2 * Real.sqrt 2 = 2 := Real.mul_self_sqrt (by norm_num)
  have hs2pos : 0 < Real.sqrt 2 := Real.sqrt_pos.mpr (by norm_num)
  refine ⟨h0, ?_⟩
  intro heq
  norm_num [convert_flash_rotation, h45, h0, radiansR_45, radiansR_zero,
    Real.cos_pi_div_four, Real.sin_pi_div_four, Real.cos_zero,
    Real.sin_zero] at heq
  have hD : 1920 * Real.tan (2 * Real.pi / 9) / 2 +
      ((1 - Real.sqrt 2) * 1920 / 2 - 960) * (Real.sqrt 2 / 2) =
      960 * Real.tan (2 * Real.pi / 9) - 960 := by
    linear_combination (-480 : ℝ) * hs2
  rw [hD] at heq
  have hD0 : ¬ (960 * Real.tan (2 * Real.pi / 9) - 960 = 0) := by
    intro hz
    linarith
  rw [if_neg hD0] at heq
  have hsc : 1920 * Real.tan (2 * Real.pi / 9) / 2 /
      (960 * Real.tan (2 * Real.pi / 9) - 960) < 0 :=
    div_neg_of_pos_of_neg (by linarith) (by linarith)
  rw [if_pos hsc] at heq
  norm_num at heq
  have hq : 1920 * Real.tan (2 * Real.pi / 9) / 2 /
      (960 * Real.tan (2 * Real.pi / 9) - 960) = -1 := by linarith
  rw [div_eq_iff hD0] at hq
  linarith

end Xml2Ass
